import Mathlib

/-!
Verification development for the secure packet transport subsystem of the
`tnetlib-client` repository: the binary codec (`src/@internals/binary-protocol.ts`),
the key material model (`src/transport/key-object.ts`), the secure packet
protocol (`createPacket` / `unwrapPacket`) and the payload builder
(`Transporter`).

Modelling conventions:
* bytes are `Nat` values (kept below 256 by construction where the source
  guarantees it); byte sequences are `List Nat`;
* JavaScript 32-bit coercions (`| 0`, `>>> 0`, `&`, `<<`) are made explicit
  with `% 2 ^ 32` and a signed reinterpretation `int32OfPattern`;
* fallible operations return `Except JsErr`; `JsErr` mirrors the source's
  `ERROR_CODE` enumeration plus the JavaScript `TypeError` raised when a
  nulled buffer is dereferenced;
* the platform text codec / JSON codec and the platform crypto provider
  (AES-256-CTR, SHA-512, HMAC-SHA-512, secure randomness) are external
  collaborators of the subsystem; they are modelled as explicit parameters
  (`Platform`, `Crypto`) and theorems state the contracts assumed of them.
-/

/-- Error discriminants; mirrors the `ERROR_CODE` enum in
`src/@internals/errors.ts`. `typeError` stands for the JavaScript `TypeError`
thrown when a nulled internal buffer is dereferenced (not an `Exception` of the
library). `unknownError` is an `Exception` thrown without an explicit code
(`ERR_UNKNOWN_ERROR`). `fuelExhausted` is an artifact of the bounded-recursion
encoding of `deserialize` and is unreachable with the fuel chosen by its
wrapper. -/
inductive JsErr where
  | endOfStream
  | typeError
  | invalidType
  | jsonError
  | unknownError
  | invalidSignature
  | magicMismatch
  | resourceDisposed
  | cryptoKeyShort
  | invalidArgument
  | fuelExhausted
  deriving DecidableEq, Repr

/-- JavaScript `ToUint32` bit pattern of an integer-valued number (used by the
`>>>` operator and to reason about `|`, `&`, `<<`, which share the pattern). -/
def jsToUint32 (v : Int) : Nat :=
  (v % 4294967296).toNat

/-- Reinterpret a 32-bit pattern as the signed value JavaScript bitwise
operators produce. -/
def int32OfPattern (p : Nat) : Int :=
  if p < 2147483648 then (p : Int) else (p : Int) - 4294967296

/-- State of a `BinaryReader` (`src/@internals/binary-protocol.ts`): the
backing buffer (`none` once the reader nulls it out), the cursor, and the
`total` field (`-1` after `dispose`). -/
structure RState where
  data : Option (List Nat)
  cursor : Nat
  total : Int
  deriving DecidableEq, Repr

/-- `new BinaryReader(data)`. -/
def freshReader (d : List Nat) : RState :=
  { data := some d, cursor := 0, total := (d.length : Int) }

/-- `BinaryReader.dispose()`: nulls the data, resets the cursor, sets the
recorded total to `-1`. -/
def readerDispose (_s : RState) : RState :=
  { data := none, cursor := 0, total := -1 }

/-- `BinaryReader.read(length?)`. Reading with no length (or a length below 1,
which is also the path taken by a zero-length read) returns every remaining
byte and nulls the backing buffer; a counted read returns
`min(length, remaining)` bytes and advances the cursor. A read from a source
whose remaining count is below 1 fails with `ERR_END_OF_STREAM`; a read after
the buffer was nulled dereferences `null` (a `TypeError`). -/
def readBytes (s : RState) (length : Option Int) : Except JsErr (List Nat × RState) :=
  match s.data with
  | none => .error .typeError
  | some d =>
    let remaining := d.length - s.cursor
    if remaining < 1 then .error .endOfStream
    else
      match length with
      | none =>
        .ok (d.drop s.cursor, { data := none, cursor := d.length, total := s.total })
      | some L =>
        if L < 1 then
          .ok (d.drop s.cursor, { data := none, cursor := d.length, total := s.total })
        else
          let len := min L.toNat remaining
          .ok ((d.drop s.cursor).take len,
               { data := some d, cursor := s.cursor + len, total := s.total })

/-- One step `value |= (next & 0x7F) << shift` of `readIntVQL`, iterated over
the remaining bytes of the reader; returns the accumulated 32-bit pattern and
the number of bytes consumed, or `none` if the byte source runs out
(`ERR_END_OF_STREAM` at the reader). The `% 32` on the shift and the
`% 2 ^ 32` reflect the 32-bit semantics of the JavaScript `<<` and `|`. -/
def readVQLCore : List Nat → Nat → Nat → Option (Nat × Nat)
  | [], _, _ => none
  | b :: rest, shift, acc =>
    let acc2 := acc ||| ((b &&& 127) <<< (shift % 32) % 4294967296)
    if b &&& 128 = 0 then some (acc2, 1)
    else
      match readVQLCore rest (shift + 7) acc2 with
      | none => none
      | some (v, k) => some (v, k + 1)

/-- `readIntVQL(reader)` (`src/@internals/binary-protocol.ts`): decode a
variable-length quantity by repeated `reader.read(1)`, returning the signed
32-bit value JavaScript's `|`/`<<` arithmetic yields. -/
def readIntVQL (s : RState) : Except JsErr (Int × RState) :=
  match s.data with
  | none => .error .typeError
  | some d =>
    match readVQLCore (d.drop s.cursor) 0 0 with
    | none => .error .endOfStream
    | some (pattern, k) =>
      .ok (int32OfPattern pattern, { data := some d, cursor := s.cursor + k, total := s.total })

/-- The `while (value !== 0)` loop of `writeInt32VQL`, with enough fuel to run
to completion: emit the low 7 bits, shift by 7 (`>>>= 7`, an unsigned 32-bit
shift), set the continuation bit when more remains. -/
def vqlLoop : Nat → Int → List Nat
  | 0, _ => []
  | fuel + 1, v =>
    if v = 0 then []
    else
      let b := jsToUint32 v &&& 127
      let v2 : Nat := jsToUint32 v >>> 7
      (if 0 < v2 then b ||| 128 else b) :: vqlLoop fuel (v2 : Int)

/-- `writeInt32VQL(writer, value)` as the list of bytes appended to the
writer: zero is a single zero byte, otherwise the continuation-bit loop. -/
def writeInt32VQL (v : Int) : List Nat :=
  if v = 0 then [0] else vqlLoop (jsToUint32 v + 1) v

/-- Tag byte of `SerializableDataType.Null`. -/
def SerializableDataType.Null : Nat := 0

/-- Tag byte of `SerializableDataType.String`. -/
def SerializableDataType.String : Nat := 1

/-- Tag byte of `SerializableDataType.Uint`. -/
def SerializableDataType.Uint : Nat := 2

/-- Tag byte of `SerializableDataType.Object`. -/
def SerializableDataType.Object : Nat := 3

/-- Tag byte of `SerializableDataType.Array`. -/
def SerializableDataType.Array : Nat := 4

/-- Tag byte of `SerializableDataType.MarshallObject`. -/
def SerializableDataType.MarshallObject : Nat := 5

/-- Tag byte of `SerializableDataType.Buffer`. -/
def SerializableDataType.Buffer : Nat := 6

mutual

/-- The runtime values the codec dispatches on: `null`/`undefined`, strings,
`Uint8Array` byte buffers, integer numbers, and arrays. Structured objects
(the `Object`/JSON fallback branch) only arise on the decode side through the
abstract platform JSON codec and are outside the claims under test, so they
have no constructor; every constructor here matches one of the explicit
`serialize` branches. Strings are modelled as sequences of Unicode scalar
values. -/
inductive JSValue where
  | null
  | str (s : String)
  | buf (b : List Nat)
  | num (n : Int)
  | arr (xs : JSList)

/-- A JavaScript array of `JSValue`s. -/
inductive JSList where
  | nil
  | cons (hd : JSValue) (tl : JSList)

end

mutual

def JSValue.beq : JSValue → JSValue → Bool
  | .null, .null => true
  | .str a, .str b => a == b
  | .buf a, .buf b => a == b
  | .num a, .num b => a == b
  | .arr a, .arr b => JSList.beq a b
  | _, _ => false

def JSList.beq : JSList → JSList → Bool
  | .nil, .nil => true
  | .cons a as, .cons b bs => JSValue.beq a b && JSList.beq as bs
  | _, _ => false

end

mutual

theorem jsValueBeqIff : ∀ a b : JSValue, JSValue.beq a b = true ↔ a = b
  | .null, b => by cases b <;> simp [JSValue.beq]
  | .str s, b => by cases b <;> simp [JSValue.beq]
  | .buf l, b => by cases b <;> simp [JSValue.beq]
  | .num n, b => by cases b <;> simp [JSValue.beq]
  | .arr xs, b => by
      cases b <;> simp [JSValue.beq]
      exact jsListBeqIff xs _

theorem jsListBeqIff : ∀ a b : JSList, JSList.beq a b = true ↔ a = b
  | .nil, b => by cases b <;> simp [JSList.beq]
  | .cons x xs, b => by
      cases b with
      | nil => simp [JSList.beq]
      | cons y ys =>
        simp only [JSList.beq, Bool.and_eq_true, JSList.cons.injEq]
        exact and_congr (jsValueBeqIff x y) (jsListBeqIff xs ys)

end

/-- Decidable equality for `Except` results, used to evaluate the model on
concrete inputs. -/
def exceptDecEq {ε α : Type} [DecidableEq ε] [DecidableEq α] :
    DecidableEq (Except ε α) := fun a b =>
  match a, b with
  | .error e1, .error e2 =>
    decidable_of_iff (e1 = e2) (by simp)
  | .ok v1, .ok v2 =>
    decidable_of_iff (v1 = v2) (by simp)
  | .error _, .ok _ => isFalse (by simp)
  | .ok _, .error _ => isFalse (by simp)

instance {ε α : Type} [DecidableEq ε] [DecidableEq α] : DecidableEq (Except ε α) :=
  exceptDecEq

instance : DecidableEq JSValue := fun a b =>
  decidable_of_iff (JSValue.beq a b = true) (jsValueBeqIff a b)

instance : DecidableEq JSList := fun a b =>
  decidable_of_iff (JSList.beq a b = true) (jsListBeqIff a b)

/-- Length of a `JSList` (the JavaScript `.length` of the array). -/
def JSList.length : JSList → Nat
  | .nil => 0
  | .cons _ tl => 1 + tl.length

/-- `xs[i]` on a `JSList`. -/
def JSList.get? : JSList → Nat → Option JSValue
  | .nil, _ => none
  | .cons hd _, 0 => some hd
  | .cons _ tl, n + 1 => tl.get? n

/-- The platform text/JSON collaborators consumed by the codec
(`TextEncoder`, `TextDecoder`, `jsonSafeParser` — external services per the
design): `enc`/`dec` are the UTF-8 encoder/decoder pair, `jsonParse` is the
composite of text decoding and safe JSON parsing used by the `Object` tag. -/
structure Platform where
  enc : String → List Nat
  dec : List Nat → String
  jsonParse : List Nat → Except Unit JSValue

mutual

/-- `serialize(writer, data)` (`src/@internals/binary-protocol.ts`) as the
byte sequence appended to the writer. Dispatch follows the source:
null/undefined, string, `Uint8Array`, integer number, array; the JSON
`Object` fallback is unreachable for the modelled value universe because each
constructor matches an earlier branch. -/
def serializeVal (P : Platform) : JSValue → List Nat
  | .null => [SerializableDataType.Null]
  | .str s =>
    let buffer := P.enc s
    SerializableDataType.String :: (writeInt32VQL (buffer.length : Int) ++ buffer)
  | .buf b =>
    SerializableDataType.Buffer :: (writeInt32VQL (b.length : Int) ++ b)
  | .num n =>
    SerializableDataType.Uint :: writeInt32VQL n
  | .arr xs =>
    SerializableDataType.Array :: (writeInt32VQL (xs.length : Int) ++ serializeList P xs)

/-- Serialization of the elements of an array, in order. -/
def serializeList (P : Platform) : JSList → List Nat
  | .nil => []
  | .cons hd tl => serializeVal P hd ++ serializeList P tl

end

/-- The element loop of the `Array` case of `deserialize`: read `n` values
with the supplied single-value parser. -/
def deserializeN (dA : RState → Except JsErr (JSValue × RState)) :
    Nat → RState → Except JsErr (JSList × RState)
  | 0, s => .ok (.nil, s)
  | n + 1, s => do
    let (v, s1) ← dA s
    let (vs, s2) ← deserializeN dA n s1
    .ok (.cons v vs, s2)

/-- `deserialize(reader)` (`src/@internals/binary-protocol.ts`) with an
explicit recursion bound: read one tag byte and dispatch. Tag 5
(`MarshallObject`) has no case in the source switch and falls to the default
`ERR_INVALID_TYPE`, as does every unknown tag. -/
def deserializeAux (P : Platform) : Nat → RState → Except JsErr (JSValue × RState)
  | 0, _ => .error .fuelExhausted
  | fuel + 1, s => do
    let (t, s0) ← readBytes s (some 1)
    let tag := t.headD 0
    if tag = SerializableDataType.Null then
      .ok (.null, s0)
    else if tag = SerializableDataType.String then do
      let (len, s1) ← readIntVQL s0
      let (bs, s2) ← readBytes s1 (some len)
      .ok (.str (P.dec bs), s2)
    else if tag = SerializableDataType.Uint then do
      let (n, s1) ← readIntVQL s0
      .ok (.num n, s1)
    else if tag = SerializableDataType.Buffer then do
      let (len, s1) ← readIntVQL s0
      let (bs, s2) ← readBytes s1 (some len)
      .ok (.buf bs, s2)
    else if tag = SerializableDataType.Array then do
      let (len, s1) ← readIntVQL s0
      let (xs, s2) ← deserializeN (deserializeAux P fuel) len.toNat s1
      .ok (.arr xs, s2)
    else if tag = SerializableDataType.Object then do
      let (len, s1) ← readIntVQL s0
      let (bs, s2) ← readBytes s1 (some len)
      match P.jsonParse bs with
      | .error _ => .error .jsonError
      | .ok v => .ok (v, s2)
    else
      .error .invalidType

/-- Remaining byte count of a reader (zero once the buffer is nulled). -/
def readerRemaining (s : RState) : Nat :=
  match s.data with
  | none => 0
  | some d => d.length - s.cursor

/-- `deserialize(reader)`: the bounded recursion with enough fuel for any
value that fits in the remaining bytes (each recursive call consumes at least
the tag byte, so `remaining + 1` steps always suffice). -/
def deserialize (P : Platform) (s : RState) : Except JsErr (JSValue × RState) :=
  deserializeAux P (readerRemaining s + 1) s

/-- The mask argument of the packet functions: a `Uint8Array` or a plain
number (`src/@internals/util.ts`, `maskBuffer`). -/
inductive Mask where
  | num (m : Int)
  | arr (a : List Nat)
  deriving DecidableEq, Repr

/-- The mask byte combined with input byte `i`: `mask[i % mask.length]` for an
array mask (an out-of-range/`NaN` index reads `undefined`, which the xor
coerces to 0), or the scalar's 32-bit pattern (the xor only keeps its low
byte). -/
def maskByteAt (mask : Mask) (i : Nat) : Nat :=
  match mask with
  | .arr a => (a.get? (i % a.length)).getD 0
  | .num m => jsToUint32 m

/-- The index loop of `maskBuffer`: `output[i] = input[i] ^ maskByte`, with the
`Uint8Array` store truncating to the low byte. -/
def maskBufferGo (mask : Mask) : List Nat → Nat → List Nat
  | [], _ => []
  | x :: xs, i => ((x ^^^ maskByteAt mask i) % 256) :: maskBufferGo mask xs (i + 1)

/-- `maskBuffer(buffer, mask)` (`src/@internals/util.ts`): xor every byte with
the (cycled) mask. -/
def maskBuffer (buffer : List Nat) (mask : Mask) : List Nat :=
  maskBufferGo mask buffer 0

/-- `concatBuffers(...buffers)` (`src/@internals/util.ts`). -/
def concatBuffers (bs : List (List Nat)) : List Nat :=
  bs.flatten

/-- The accumulator loop of `timingSafeEqual`: `c |= a[i] ^ b[i]`. -/
def tseFold (a b : List Nat) : Nat :=
  (List.zipWith (fun x y => x ^^^ y) a b).foldl (fun c x => c ||| x) 0

/-- `timingSafeEqual(a, b)` (`src/@internals/util.ts`) on byte inputs: `false`
on a length mismatch, otherwise the or-accumulated xor must be zero. -/
def timingSafeEqual (a b : List Nat) : Bool :=
  if a.length ≠ b.length then false
  else tseFold a b = 0

/-- `PACKET_MAGIC_BUFFER`: the 20-byte packet magic. -/
def PACKET_MAGIC_BUFFER : List Nat :=
  [0x00, 0x54, 0x4E, 0x45, 0x54, 0x4C, 0x49, 0x42, 0x53, 0x45, 0x43, 0x55,
   0x52, 0x45, 0x50, 0x41, 0x43, 0x4B, 0x45, 0x54]

/-- `isSecurePacket(source)`: constant-time comparison of the first 20 bytes
against the magic. -/
def isSecurePacket (source : List Nat) : Bool :=
  timingSafeEqual (source.take PACKET_MAGIC_BUFFER.length) PACKET_MAGIC_BUFFER

/-- `getDefaultMask()`. -/
def getDefaultMask : Int := 0x5EC7BF

/-- `TRANSPORT_STRATEGY.K_DHAC_K64`. -/
def TRANSPORT_STRATEGY_K_DHAC_K64 : Int := -2

/-- Per-strategy slice lengths (`AlgorithmLengths` in
`src/transport/key-object.ts`). -/
structure AlgorithmLengths where
  master : Nat
  signK : Nat
  ivLength : Nat
  deriving DecidableEq, Repr

/-- State of a `TransportKeyObject`: the key material held in a
`BinaryReader`, the strategy, and the disposed flag. -/
structure KState where
  km : RState
  strategy : Int
  disposed : Bool
  deriving DecidableEq, Repr

/-- `new TransportKeyObject(key, strategy?)`. -/
def transportKeyNew (material : List Nat) (strategy : Int) : KState :=
  { km := freshReader material, strategy := strategy, disposed := false }

/-- `TransportKeyObject.dispose()`: idempotent; disposes the key-material
reader and marks the object disposed. -/
def transportKeyDispose (k : KState) : KState :=
  if k.disposed then k
  else { km := readerDispose k.km, strategy := k.strategy, disposed := true }

/-- `TransportKeyObject.#getAlgorithmLength()`: fails once disposed
(`ERR_RESOURCE_DISPOSED`); resolves `K_DHAC_K64` to master 32 / signing 48 /
IV 16; any other strategy is the uncoded "Something was wrong" failure. -/
def getAlgorithmLength (k : KState) : Except JsErr AlgorithmLengths :=
  if k.disposed then .error .resourceDisposed
  else if k.strategy = TRANSPORT_STRATEGY_K_DHAC_K64 then
    .ok { master := 32, signK := 48, ivLength := 16 }
  else .error .unknownError

/-- Modelled from the spec: `BinaryReader.seek` is used by
`TransportKeyObject.master`/`signK` but is not present in the available
source of `binary-protocol.ts`; per the spec's key-material layout (bytes
`[0, masterKeyLength)` are the cipher key and
`[masterKeyLength, masterKeyLength + signingKeyLength)` the signing key,
returned without consuming the reader), `seek(end, start = 0)` yields the
bytes `[start, end)` of the backing buffer and leaves the reader state
untouched. -/
def readerSeek (s : RState) (e : Nat) (st : Nat) : List Nat :=
  ((s.data.getD []).drop st).take (e - st)

/-- `TransportKeyObject.strategy` getter: fails once disposed. -/
def kStrategy (k : KState) : Except JsErr Int :=
  if k.disposed then .error .resourceDisposed else .ok k.strategy

/-- `TransportKeyObject.master(c?)`: resolve the strategy lengths (failing
when disposed), fail with `ERR_CRYPTO_KEY_SHORT` when the recorded material
length is below the master length, otherwise return bytes `[0, 32)` — by
`read` (consuming) when `c` is set, by `seek` otherwise. -/
def masterKey (k : KState) (c : Bool) : Except JsErr (List Nat × KState) := do
  let L ← getAlgorithmLength k
  if (L.master : Int) > k.km.total then .error .cryptoKeyShort
  else if c then do
    let (bs, r) ← readBytes k.km (some (L.master : Int))
    .ok (bs, { k with km := r })
  else
    .ok (readerSeek k.km L.master 0, k)

/-- `TransportKeyObject.signK()`: fail with `ERR_CRYPTO_KEY_SHORT` when fewer
than master+signing bytes are recorded, otherwise bytes `[32, 80)`. -/
def signKey (k : KState) : Except JsErr (List Nat) := do
  let L ← getAlgorithmLength k
  if ((L.master + L.signK : Nat) : Int) > k.km.total then .error .cryptoKeyShort
  else .ok (readerSeek k.km (L.master + L.signK) L.master)

/-- The platform crypto provider (Node `node:crypto` / WebCrypto — an
external collaborator): counter-mode cipher, keyed and unkeyed SHA-512, and
the secure random source, the latter modelled as the byte sequence the
provider returns for a requested length. -/
structure Crypto where
  encrypt : List Nat → List Nat → List Nat → List Nat
  decrypt : List Nat → List Nat → List Nat → List Nat
  hmacSha512 : List Nat → List Nat → List Nat
  sha512 : List Nat → List Nat
  randomBytes : Nat → List Nat

/-- `TransportKeyObject.generateRandomIV()`: resolve the strategy lengths
(failing when disposed) and draw that many random bytes. -/
def generateRandomIV (C : Crypto) (k : KState) : Except JsErr (List Nat) := do
  let L ← getAlgorithmLength k
  .ok (C.randomBytes L.ivLength)

/-- `sign(content, key?)` (`src/transport/index.ts`): HMAC-SHA-512 under the
signing key when one is given, otherwise a bare SHA-512 of the content. -/
def signPayload (C : Crypto) (content : List Nat) (key : Option (List Nat)) : List Nat :=
  match key with
  | none => C.sha512 content
  | some k => C.hmacSha512 k content

/-- `createPacket(payload, key, mask)`: draw a fresh IV, try the signing key
(failure degrades to the unkeyed hash), dispatch on the strategy, sign the
plaintext, encrypt under the master key and IV, and emit
`MAGIC || serialize(cipherText) || serialize(signature) || serialize(maskedIV)`.
Any other strategy fails with `ERR_INVALID_ARGUMENT`. -/
def createPacket (P : Platform) (C : Crypto) (payload : List Nat) (k : KState)
    (mask : Mask) : Except JsErr (List Nat) := do
  let iv ← generateRandomIV C k
  let sk := (signKey k).toOption
  let strat ← kStrategy k
  if strat = TRANSPORT_STRATEGY_K_DHAC_K64 then do
    let signature := signPayload C payload sk
    let mk ← masterKey k false
    let enc := C.encrypt mk.1 iv payload
    .ok (PACKET_MAGIC_BUFFER ++
      (serializeVal P (.buf enc) ++ (serializeVal P (.buf signature) ++
        serializeVal P (.buf (maskBuffer iv mask)))))
  else .error .invalidArgument

/-- A property value of the reconstructed key/value object: `none` models the
JavaScript `undefined` read from a missing index. -/
abbrev PropVal := Option JSValue

mutual

/-- JavaScript `ToString` on the modelled values (the property-key coercion of
`obj[k] = v`): `null` prints `"null"`, numbers print in decimal, typed arrays
and arrays join their elements with commas (`null` joining as the empty
string). -/
def jsToString : JSValue → String
  | .null => "null"
  | .str s => s
  | .num n => toString n
  | .buf b => String.intercalate "," (b.map (fun x => Nat.repr x))
  | .arr xs => String.intercalate "," (jsToStringList xs)

/-- Element strings of `Array.prototype.join`. -/
def jsToStringList : JSList → List String
  | .nil => []
  | .cons hd tl =>
    (match hd with
     | .null => ""
     | v => jsToString v) :: jsToStringList tl

end

/-- JavaScript property read `v[i]` on the modelled values: arrays index
their elements, strings index their characters, byte buffers their bytes;
indexing a number yields `undefined`; indexing `null` throws a `TypeError`. -/
def jsIndex (v : JSValue) (i : Nat) : Except JsErr PropVal :=
  match v with
  | .null => .error .typeError
  | .arr xs => .ok (xs.get? i)
  | .str s => .ok ((s.data.get? i).map (fun ch => .str (String.mk [ch])))
  | .buf b => .ok ((b.get? i).map (fun x => .num (x : Int)))
  | .num _ => .ok none

/-- Property key of `obj[k] = v` for a possibly-`undefined` key. -/
def jsPropKey (k : PropVal) : String :=
  match k with
  | none => "undefined"
  | some v => jsToString v

/-- JavaScript property assignment on a plain object, modelled as an
insertion-ordered association list: overwrite an existing key in place,
otherwise append. -/
def objAssign (o : List (String × PropVal)) (k : String) (v : PropVal) :
    List (String × PropVal) :=
  if o.any (fun e => e.1 = k) then o.map (fun e => if e.1 = k then (k, v) else e)
  else o ++ [(k, v)]

/-- The reconstruction loop of `unwrapPacket`: `obj[raw[i][0]] = raw[i][1]`
over the decoded array, in order. -/
def packDict : JSList → List (String × PropVal) →
    Except JsErr (List (String × PropVal))
  | .nil, acc => .ok acc
  | .cons p ps, acc => do
    let k ← jsIndex p 0
    let v ← jsIndex p 1
    packDict ps (objAssign acc (jsPropKey k) v)

/-- The guard `Array.isArray(raw) && (raw.length > 0 ? Array.isArray(raw[0]) : true)`
choosing whether the decoded plaintext is treated as a key/value list. -/
def dictGuard (raw : JSValue) : Bool :=
  match raw with
  | .arr .nil => true
  | .arr (.cons (.arr _) _) => true
  | _ => false

/-- Result of `unwrapPacket`: either the decoded value, or the reconstructed
key→value object. -/
inductive UnwrapResult where
  | value (v : JSValue)
  | obj (entries : List (String × PropVal))
  deriving DecidableEq

/-- The tail of `unwrapPacket` after signature verification: the decoded
plaintext is either reconstructed into an object (when the guard holds) or
returned unchanged. -/
def unwrapDecode (raw : JSValue) : Except JsErr UnwrapResult :=
  if dictGuard raw then
    match raw with
    | .arr xs => do
      let o ← packDict xs []
      .ok (.obj o)
    | _ => .ok (.value raw)
  else .ok (.value raw)

/-- `unwrapPacket(payload, key, mask)`: check the magic (constant time),
read the three `Buffer` fields, unmask the IV, decrypt under the master key,
recompute the signature over the plaintext with the same signing-key-or-none
rule, compare in constant time (`ERR_INVALID_SIGNATURE` on mismatch), decode
the plaintext, and reconstruct a key/value object when the decoded value
looks like one. -/
def unwrapPacket (P : Platform) (C : Crypto) (payload : List Nat) (k : KState)
    (mask : Mask) : Except JsErr UnwrapResult := do
  let buffer := payload
  if isSecurePacket buffer = false then .error .magicMismatch
  else do
    let r0 := freshReader (buffer.drop PACKET_MAGIC_BUFFER.length)
    let sk := (signKey k).toOption
    let strat ← kStrategy k
    if strat = TRANSPORT_STRATEGY_K_DHAC_K64 then do
      let (v1, r1) ← deserialize P r0
      let (v2, r2) ← deserialize P r1
      let (v3, _) ← deserialize P r2
      match v1, v2, v3 with
      | .buf ec, .buf sg, .buf iv => do
        let ivBuffer := maskBuffer iv mask
        let mk ← masterKey k false
        let dec := C.decrypt mk.1 ivBuffer ec
        let computedSign := signPayload C dec sk
        if timingSafeEqual computedSign sg = false then .error .invalidSignature
        else do
          let (raw, _) ← deserialize P (freshReader dec)
          unwrapDecode raw
      | _, _, _ => .error .unknownError
    else .error .invalidArgument

/-- The payload variants of the `Transporter`: an ordered key/value pair
list, a raw-byte accumulator (the chunk list of its `BinaryWriter`), or a
single native value. -/
inductive TransportPayload where
  | dict (pairs : List (String × JSValue))
  | raw (chunks : List (List Nat))
  | native (v : JSValue)
  deriving DecidableEq

/-- State of a `Transporter`. -/
structure TState where
  payload : TransportPayload
  key : KState
  maskBytes : Mask
  disposed : Bool
  deriving DecidableEq

/-- `new Transporter(key)` with a caller-supplied `TransportKeyObject`: the
key object is stored as-is (not copied); the mask defaults to
`getDefaultMask()` and the payload starts as an empty raw accumulator. -/
def transporterNew (key : KState) : TState :=
  { payload := .raw [], key := key, maskBytes := .num getDefaultMask, disposed := false }

/-- `Transporter.write(chunk)`: fails once disposed; a non-raw active variant
is discarded and replaced by a fresh raw accumulator before the chunk is
appended. -/
def transporterWrite (t : TState) (chunk : List Nat) : Except JsErr TState :=
  if t.disposed then .error .resourceDisposed
  else
    match t.payload with
    | .raw chunks => .ok { t with payload := .raw (chunks ++ [chunk]) }
    | _ => .ok { t with payload := .raw [chunk] }

/-- `Transporter.append(key, value)`: fails once disposed; a non-dict active
variant is discarded and replaced by a fresh empty pair list before the pair
is appended. -/
def transporterAppend (t : TState) (key : String) (value : JSValue) :
    Except JsErr TState :=
  if t.disposed then .error .resourceDisposed
  else
    match t.payload with
    | .dict pairs => .ok { t with payload := .dict (pairs ++ [(key, value)]) }
    | _ => .ok { t with payload := .dict [(key, value)] }

/-- `Transporter.setPayload(value)`: unconditionally replaces the active
variant. -/
def transporterSetPayload (t : TState) (v : JSValue) : Except JsErr TState :=
  if t.disposed then .error .resourceDisposed
  else .ok { t with payload := .native v }

/-- A `[string, unknown][]` pair array as the array value `serialize` sees. -/
def pairsToJSList : List (String × JSValue) → JSList
  | [] => .nil
  | (k, v) :: rest => .cons (.arr (.cons (.str k) (.cons v .nil))) (pairsToJSList rest)

/-- `Transporter.#toBytes()`: serialize the active variant — the pair list as
an array of two-element arrays, the native value as itself, the raw
accumulator as a single buffer. -/
def transporterToBytes (P : Platform) (t : TState) : List Nat :=
  match t.payload with
  | .dict pairs => serializeVal P (.arr (pairsToJSList pairs))
  | .native v => serializeVal P v
  | .raw chunks => serializeVal P (.buf (concatBuffers chunks))

/-- `Transporter.bytes()`: fails once disposed. -/
def transporterBytes (P : Platform) (t : TState) : Except JsErr (List Nat) :=
  if t.disposed then .error .resourceDisposed
  else .ok (transporterToBytes P t)

/-- `Transporter.return()`: seal the serialized payload with the held key and
mask. -/
def transporterReturn (P : Platform) (C : Crypto) (t : TState) :
    Except JsErr (List Nat) :=
  if t.disposed then .error .resourceDisposed
  else createPacket P C (transporterToBytes P t) t.key t.maskBytes

/-- `Transporter.dispose()`: idempotent; disposes the held
`TransportKeyObject` (also when it was supplied by the caller) and clears the
payload and mask. -/
def transporterDispose (t : TState) : TState :=
  if t.disposed then t
  else { payload := .raw [], key := transportKeyDispose t.key,
         maskBytes := .num 0, disposed := true }

/-! ### Concrete fixtures used to evaluate the model -/

/-- A degenerate platform codec (any lawless instance suffices for byte-level
evaluations that never reach the text/JSON paths). -/
def idPlatform : Platform :=
  ⟨fun _ => [], fun _ => "", fun _ => .error ()⟩

/-- A transparent crypto provider: identity cipher, hash prepending a zero
byte (injective and never empty), all-zero randomness. -/
def cIdentity : Crypto :=
  ⟨fun _ _ d => d, fun _ _ d => d, fun _ d => 0 :: d, fun d => 0 :: d,
   fun n => List.replicate n 0⟩

/-- An 80-byte key material blob. -/
def sampleKeyMaterial : List Nat := List.replicate 80 1

/-- A key object over `sampleKeyMaterial` with the default strategy. -/
def sampleKey : KState := transportKeyNew sampleKeyMaterial TRANSPORT_STRATEGY_K_DHAC_K64

/-- The default scalar mask. -/
def sampleMask : Mask := .num getDefaultMask

/-- Flip bit `b` of byte `i` of a byte sequence (xor the byte with `1 << b`). -/
def flipBit (l : List Nat) (i b : Nat) : List Nat :=
  l.set i ((l[i]?.getD 0) ^^^ (1 <<< b))

/-- The key object held by a `Transporter` built over `k`, after the
transporter is disposed: `Transporter.dispose` disposes the held key even
though the caller never disposed it directly. -/
def disposedKeyOf (k : KState) : KState :=
  (transporterDispose (transporterNew k)).key

/-- Whether every element of a decoded array is a two-element array (a
key/value pair). -/
def pairsTwo : JSList → Bool
  | .nil => true
  | .cons (.arr (.cons _ (.cons _ .nil))) tl => pairsTwo tl
  | _ => false

/-! ### Arithmetic helpers for the 7-bit variable-length encoding -/

theorem jsToUint32_coe (u : Nat) (h : u < 4294967296) : jsToUint32 (u : Int) = u := by
  unfold jsToUint32
  omega

theorem lor_eq_zero_iff (a b : Nat) : a ||| b = 0 ↔ a = 0 ∧ b = 0 := by
  constructor
  · intro h
    constructor <;> apply Nat.eq_of_testBit_eq <;> intro i <;>
      have hi := congrArg (fun x => Nat.testBit x i) h <;>
      simp only [Nat.testBit_lor, Nat.zero_testBit, Bool.or_eq_false_iff] at hi
    · exact by simp [hi.1]
    · exact by simp [hi.2]
  · rintro ⟨rfl, rfl⟩
    rfl

theorem and_127_eq_mod (u : Nat) : u &&& 127 = u % 128 := by
  have h : (127 : Nat) = 2 ^ 7 - 1 := by norm_num
  have h2 : (128 : Nat) = 2 ^ 7 := by norm_num
  rw [h, h2, Nat.and_pow_two_sub_one_eq_mod]

theorem and_128_eq_zero (u : Nat) (h : u < 128) : u &&& 128 = 0 := by
  apply Nat.eq_of_testBit_eq
  intro i
  simp only [Nat.testBit_land, Nat.zero_testBit]
  have h128 : (128 : Nat) = 2 ^ 7 := by norm_num
  rcases eq_or_ne i 7 with rfl | hne
  · have h7 : u < 2 ^ 7 := by norm_num; omega
    have : u.testBit 7 = false := Nat.testBit_lt_two_pow h7
    simp [this]
  · have : Nat.testBit 128 i = false := by
      rw [h128, Nat.testBit_two_pow]
      simpa using fun hq => hne hq.symm
    simp [this]

theorem lor_low_eq_add (a b k : Nat) (h : a < 2 ^ k) : a ||| (b <<< k) = b * 2 ^ k + a := by
  have h2 := Nat.mul_add_lt_is_or h b
  rw [Nat.shiftLeft_eq, Nat.lor_comm, Nat.mul_comm b (2 ^ k), ← h2]

theorem add_128_and_127 (x : Nat) (h : x < 128) : (x + 128) &&& 127 = x := by
  rw [and_127_eq_mod]
  omega

theorem add_128_and_128 (x : Nat) (h : x < 128) : (x + 128) &&& 128 = 128 := by
  apply Nat.eq_of_testBit_eq
  intro i
  simp only [Nat.testBit_land]
  have h128 : (128 : Nat) = 2 ^ 7 := by norm_num
  rcases eq_or_ne i 7 with rfl | hne
  · have hp : (2 : Nat) ^ 7 = 128 := by norm_num
    have hd : (x + 128) / 2 ^ 7 = 1 := by rw [hp]; omega
    have ht : (x + 128).testBit 7 = true := by
      rw [Nat.testBit_to_div_mod, hd]
      decide
    simp [ht]
  · have : Nat.testBit 128 i = false := by
      rw [h128, Nat.testBit_two_pow]
      simpa using fun hq => hne hq.symm
    simp [this]

theorem vqlLoop_zero (fuel : Nat) : vqlLoop fuel 0 = [] := by
  cases fuel <;> simp [vqlLoop]


theorem vqlLoop_spec : ∀ fuel u, 0 < u → u < fuel →
    ∀ shift acc rest, u * 2 ^ shift < 4294967296 → acc < 2 ^ shift →
    readVQLCore (vqlLoop fuel (u : Int) ++ rest) shift acc =
      some (acc + u * 2 ^ shift, (vqlLoop fuel (u : Int)).length) := by
  intro fuel
  induction fuel with
  | zero => intro u hu hlt; omega
  | succ f ih =>
    intro u hu hlt shift acc rest hbound hacc
    have hu32 : u < 4294967296 := by
      have h1 : (1 : Nat) ≤ 2 ^ shift := Nat.one_le_two_pow
      have h2 : u * 1 ≤ u * 2 ^ shift := Nat.mul_le_mul_left u h1
      omega
    have hshift : shift < 32 := by
      by_contra hge
      push_neg at hge
      have h1 : (2 : Nat) ^ 32 ≤ 2 ^ shift := Nat.pow_le_pow_right (by norm_num) hge
      have h2 : 2 ^ shift ≤ u * 2 ^ shift := Nat.le_mul_of_pos_left _ hu
      norm_num at h1
      omega
    have hcoe : jsToUint32 (u : Int) = u := jsToUint32_coe u hu32
    have hmod32 : shift % 32 = shift := Nat.mod_eq_of_lt hshift
    have hvne : ¬ ((u : Int) = 0) := by
      exact_mod_cast Nat.pos_iff_ne_zero.mp hu
    have hand : u &&& 127 = u % 128 := and_127_eq_mod u
    have hshr : u >>> 7 = u / 128 := by
      rw [Nat.shiftRight_eq_div_pow]
    rw [vqlLoop, if_neg hvne]
    simp only [hcoe, hand, hshr]
    by_cases hsmall : u / 128 = 0
    · have hu128 : u < 128 := by omega
      have humod : u % 128 = u := Nat.mod_eq_of_lt hu128
      rw [hsmall]
      rw [if_neg (by omega : ¬ (0 : Nat) < 0)]
      have hnil : vqlLoop f ((0 : Nat) : Int) = [] := by
        norm_num [vqlLoop_zero]
      rw [hnil, humod]
      show readVQLCore (u :: rest) shift acc = _
      rw [readVQLCore.eq_def]
      simp only [hand, humod, hmod32]
      have hmodr : u <<< shift % 4294967296 = u * 2 ^ shift := by
        rw [Nat.shiftLeft_eq]
        exact Nat.mod_eq_of_lt hbound
      rw [hmodr]
      have hor : acc ||| u * 2 ^ shift = u * 2 ^ shift + acc := by
        have h := lor_low_eq_add acc u shift hacc
        rw [Nat.shiftLeft_eq] at h
        exact h
      have hzero : u &&& 128 = 0 := and_128_eq_zero u hu128
      rw [hor, hzero, if_pos rfl]
      simp [Nat.add_comm]
    · have hpos : 0 < u / 128 := Nat.pos_of_ne_zero hsmall
      rw [if_pos hpos]
      have hxlt : u % 128 < 128 := Nat.mod_lt u (by norm_num)
      have hbyte : u % 128 ||| 128 = u % 128 + 128 := by
        have hb := lor_low_eq_add (u % 128) 1 7 (by omega)
        have h17 : (1 : Nat) <<< 7 = 128 := by decide
        rw [h17] at hb
        rw [hb]
        omega
      rw [hbyte, List.cons_append, readVQLCore.eq_def]
      simp only [hmod32]
      have hb127 : (u % 128 + 128) &&& 127 = u % 128 := add_128_and_127 (u % 128) hxlt
      have hb128 : (u % 128 + 128) &&& 128 = 128 := add_128_and_128 (u % 128) hxlt
      rw [hb127, hb128]
      have hmodlt : u % 128 * 2 ^ shift < 4294967296 := by
        have h1 : u % 128 ≤ u := Nat.mod_le u 128
        have h2 : u % 128 * 2 ^ shift ≤ u * 2 ^ shift := Nat.mul_le_mul_right _ h1
        omega
      have hmodr : (u % 128) <<< shift % 4294967296 = u % 128 * 2 ^ shift := by
        rw [Nat.shiftLeft_eq]
        exact Nat.mod_eq_of_lt hmodlt
      rw [hmodr]
      have hor : acc ||| u % 128 * 2 ^ shift = u % 128 * 2 ^ shift + acc := by
        have h := lor_low_eq_add acc (u % 128) shift hacc
        rw [Nat.shiftLeft_eq] at h
        exact h
      rw [hor, if_neg (by norm_num : ¬ (128 : Nat) = 0)]
      have hble : u / 128 * 2 ^ (shift + 7) ≤ u * 2 ^ shift := by
        rw [Nat.pow_add]
        have h128 : (2 : Nat) ^ 7 = 128 := by norm_num
        rw [h128]
        have h1 : u / 128 * (2 ^ shift * 128) = u / 128 * 128 * 2 ^ shift := by ring
        rw [h1]
        exact Nat.mul_le_mul_right _ (Nat.div_mul_le_self u 128)
      have haccb : u % 128 * 2 ^ shift + acc < 2 ^ (shift + 7) := by
        rw [Nat.pow_add]
        have h128 : (2 : Nat) ^ 7 = 128 := by norm_num
        rw [h128]
        have h1 : u % 128 * 2 ^ shift ≤ 127 * 2 ^ shift :=
          Nat.mul_le_mul_right _ (by omega)
        have h2 : 127 * 2 ^ shift + 2 ^ shift = 2 ^ shift * 128 := by ring
        omega
      have hdivlt : u / 128 < f := by omega
      have hdivbound : u / 128 * 2 ^ (shift + 7) < 4294967296 := by
        have := hble
        omega
      have hrec := ih (u / 128) hpos hdivlt (shift + 7)
        (u % 128 * 2 ^ shift + acc) rest hdivbound haccb
      rw [hrec]
      have hval : u % 128 * 2 ^ shift + acc + u / 128 * 2 ^ (shift + 7)
          = acc + u * 2 ^ shift := by
        rw [Nat.pow_add]
        have h128 : (2 : Nat) ^ 7 = 128 := by norm_num
        rw [h128]
        have h1 : u / 128 * (2 ^ shift * 128) = 128 * (u / 128) * 2 ^ shift := by
          ring
        rw [h1]
        have hmd : u % 128 + 128 * (u / 128) = u := Nat.mod_add_div u 128
        have h2 : u % 128 * 2 ^ shift + 128 * (u / 128) * 2 ^ shift
            = (u % 128 + 128 * (u / 128)) * 2 ^ shift := by ring
        rw [hmd] at h2
        omega
      rw [hval]
      simp [List.length_cons]

theorem writeInt32VQL_round (n : Nat) (rest : List Nat) (h : n < 2147483648) :
    readVQLCore (writeInt32VQL (n : Int) ++ rest) 0 0 =
      some (n, (writeInt32VQL (n : Int)).length) := by
  rcases Nat.eq_zero_or_pos n with rfl | hpos
  · rfl
  · have hne : ¬ ((n : Int) = 0) := by
      exact_mod_cast Nat.pos_iff_ne_zero.mp hpos
    rw [writeInt32VQL, if_neg hne]
    have hcoe : jsToUint32 (n : Int) = n := jsToUint32_coe n (by omega)
    rw [hcoe]
    have := vqlLoop_spec (n + 1) n hpos (by omega) 0 0 rest (by norm_num; omega) (by norm_num)
    simpa using this

/-! ### Reader lemmas -/

theorem drop_shift {α : Type} (d : List α) (c : Nat) (x rest : List α)
    (h : d.drop c = x ++ rest) : d.drop (c + x.length) = rest := by
  have h1 : d.drop (c + x.length) = (d.drop c).drop x.length := by
    rw [List.drop_drop]
  rw [h1, h, List.drop_left]

theorem int32OfPattern_small (p : Nat) (h : p < 2147483648) :
    int32OfPattern p = (p : Int) := by
  unfold int32OfPattern
  rw [if_pos h]

theorem readBytes_chunk (d : List Nat) (c : Nat) (t : Int) (x rest : List Nat)
    (h : d.drop c = x ++ rest) (hx : 0 < x.length) :
    readBytes ⟨some d, c, t⟩ (some (x.length : Int)) =
      .ok (x, ⟨some d, c + x.length, t⟩) := by
  unfold readBytes
  have hlen : (d.drop c).length = d.length - c := List.length_drop c d
  have hrem : d.length - c = x.length + rest.length := by
    rw [← hlen, h, List.length_append]
  simp only
  rw [hrem]
  rw [if_neg (by omega : ¬ x.length + rest.length < 1)]
  rw [if_neg (by exact_mod_cast Nat.not_lt.mpr hx : ¬ (x.length : Int) < 1)]
  have htn : ((x.length : Int)).toNat = x.length := Int.toNat_natCast x.length
  rw [htn, hrem] at *
  have hmin : min x.length (x.length + rest.length) = x.length := by omega
  rw [hmin, h, List.take_left]

theorem readBytes_one (d : List Nat) (c : Nat) (t : Int) (b : Nat) (rest : List Nat)
    (h : d.drop c = b :: rest) :
    readBytes ⟨some d, c, t⟩ (some 1) = .ok ([b], ⟨some d, c + 1, t⟩) := by
  have := readBytes_chunk d c t [b] rest (by simpa using h) (by norm_num)
  simpa using this

theorem readIntVQL_at (d : List Nat) (c : Nat) (t : Int) (n : Nat) (rest : List Nat)
    (h : d.drop c = writeInt32VQL (n : Int) ++ rest) (hn : n < 2147483648) :
    readIntVQL ⟨some d, c, t⟩ =
      .ok ((n : Int), ⟨some d, c + (writeInt32VQL (n : Int)).length, t⟩) := by
  unfold readIntVQL
  simp only
  rw [h, writeInt32VQL_round n rest hn]
  simp [int32OfPattern_small n hn]

theorem serializeVal_buf (P : Platform) (b : List Nat) :
    serializeVal P (.buf b) = 6 :: (writeInt32VQL (b.length : Int) ++ b) := by
  rfl

theorem des_buf (P : Platform) (d : List Nat) (c : Nat) (t : Int) (b rest : List Nat)
    (hb : 0 < b.length) (hlen : b.length < 2147483648)
    (h : d.drop c = serializeVal P (.buf b) ++ rest) :
    deserialize P ⟨some d, c, t⟩ =
      .ok (.buf b, ⟨some d, c + (serializeVal P (.buf b)).length, t⟩) := by
  rw [serializeVal_buf] at h ⊢
  have h0 : d.drop c = 6 :: ((writeInt32VQL (b.length : Int) ++ b) ++ rest) := by
    rw [h]
    simp
  have h1 : d.drop (c + 1) = writeInt32VQL (b.length : Int) ++ (b ++ rest) := by
    have := drop_shift d c [6] ((writeInt32VQL (b.length : Int) ++ b) ++ rest) (by simpa using h0)
    simpa using this
  have h2 : d.drop (c + 1 + (writeInt32VQL (b.length : Int)).length) = b ++ rest := by
    have := drop_shift d (c + 1) (writeInt32VQL (b.length : Int)) (b ++ rest) h1
    simpa using this
  unfold deserialize
  have hrem : 0 < readerRemaining ⟨some d, c, t⟩ := by
    unfold readerRemaining
    simp only
    have hlend : (d.drop c).length = d.length - c := List.length_drop c d
    rw [h0] at hlend
    simp at hlend
    omega
  obtain ⟨R, hR⟩ : ∃ R, readerRemaining ⟨some d, c, t⟩ = R + 1 :=
    ⟨readerRemaining ⟨some d, c, t⟩ - 1, by omega⟩
  rw [hR]
  show deserializeAux P (R + 1 + 1) _ = _
  rw [deserializeAux]
  rw [readBytes_one d c t 6 ((writeInt32VQL (b.length : Int) ++ b) ++ rest) h0]
  simp only [Bind.bind, Except.bind]
  rw [readIntVQL_at d (c + 1) t b.length (b ++ rest) h1 hlen]
  simp only [Except.bind]
  simp only [List.headD, SerializableDataType.Null, SerializableDataType.String,
    SerializableDataType.Uint, SerializableDataType.Buffer, SerializableDataType.Array,
    SerializableDataType.Object]
  norm_num
  rw [readBytes_chunk d (c + 1 + (writeInt32VQL (b.length : Int)).length) t b rest h2 hb]
  simp only [List.length_cons, List.length_append, RState.mk.injEq,
    Except.ok.injEq, Prod.mk.injEq]
  refine ⟨trivial, trivial, by omega, trivial⟩

/-! ### Constant-time comparison and masking lemmas -/

theorem foldl_lor_eq_zero (l : List Nat) (acc : Nat) :
    l.foldl (fun c x => c ||| x) acc = 0 ↔ acc = 0 ∧ ∀ x ∈ l, x = 0 := by
  induction l generalizing acc with
  | nil => simp
  | cons y ys ih =>
    simp only [List.foldl_cons, ih, List.mem_cons, lor_eq_zero_iff]
    constructor
    · rintro ⟨⟨h1, h2⟩, h3⟩
      refine ⟨h1, fun x hx => ?_⟩
      rcases hx with rfl | hx
      · exact h2
      · exact h3 x hx
    · rintro ⟨h1, h2⟩
      exact ⟨⟨h1, h2 y (Or.inl rfl)⟩, fun x hx => h2 x (Or.inr hx)⟩

theorem zip_xor_zero_eq (a : List Nat) : ∀ b : List Nat, a.length = b.length →
    (∀ x ∈ List.zipWith (fun x y => x ^^^ y) a b, x = 0) → a = b := by
  induction a with
  | nil =>
    intro b hl _
    cases b with
    | nil => rfl
    | cons y ys => simp at hl
  | cons x xs ih =>
    intro b hl hall
    cases b with
    | nil => simp at hl
    | cons y ys =>
      have hxy : x ^^^ y = 0 := hall (x ^^^ y) (by simp)
      have htl : xs = ys := by
        apply ih ys (by simpa using hl)
        intro z hz
        apply hall
        simp only [List.zipWith_cons_cons, List.mem_cons]
        right
        exact hz
      rw [Nat.xor_eq_zero.mp hxy, htl]

theorem zip_xor_self_zero (a : List Nat) :
    ∀ x ∈ List.zipWith (fun x y => x ^^^ y) a a, x = 0 := by
  induction a with
  | nil => simp
  | cons y ys ih =>
    intro x hx
    simp only [List.zipWith_cons_cons, List.mem_cons, Nat.xor_self] at hx
    rcases hx with rfl | hx
    · rfl
    · exact ih x hx

theorem timingSafeEqual_eq_true_iff (a b : List Nat) :
    timingSafeEqual a b = true ↔ a = b := by
  unfold timingSafeEqual tseFold
  constructor
  · intro h
    by_cases hl : a.length = b.length
    · rw [if_neg (not_not_intro hl)] at h
      simp only [decide_eq_true_eq] at h
      rw [foldl_lor_eq_zero] at h
      exact zip_xor_zero_eq a b hl h.2
    · rw [if_pos hl] at h
      exact absurd h (by simp)
  · rintro rfl
    rw [if_neg (not_not_intro rfl)]
    simp only [decide_eq_true_eq]
    rw [foldl_lor_eq_zero]
    exact ⟨rfl, zip_xor_self_zero a⟩

theorem timingSafeEqual_refl (a : List Nat) : timingSafeEqual a a = true :=
  (timingSafeEqual_eq_true_iff a a).mpr rfl

theorem timingSafeEqual_ne (a b : List Nat) (h : a ≠ b) :
    timingSafeEqual a b = false := by
  by_cases hc : timingSafeEqual a b = true
  · exact absurd ((timingSafeEqual_eq_true_iff a b).mp hc) h
  · simpa using hc

theorem maskBufferGo_length (m : Mask) (l : List Nat) (i : Nat) :
    (maskBufferGo m l i).length = l.length := by
  induction l generalizing i with
  | nil => rfl
  | cons x xs ih => simp [maskBufferGo, ih]

theorem maskBuffer_length (l : List Nat) (m : Mask) :
    (maskBuffer l m).length = l.length :=
  maskBufferGo_length m l 0

theorem mask_byte_invol (x mb : Nat) (hx : x < 256) :
    ((x ^^^ mb) % 256 ^^^ mb) % 256 = x := by
  have h8 : (256 : Nat) = 2 ^ 8 := by norm_num
  have hand : ∀ z : Nat, z % 256 = z &&& 255 := by
    intro z
    rw [h8, ← Nat.and_pow_two_sub_one_eq_mod]
  have hx255 : x &&& 255 = x := by
    rw [← hand x]
    exact Nat.mod_eq_of_lt hx
  have h255 : (255 : Nat) &&& 255 = 255 := rfl
  simp only [hand, Nat.and_xor_distrib_right, Nat.and_assoc, h255, hx255]
  rw [Nat.xor_assoc, Nat.xor_self]
  simp

theorem maskBufferGo_invol (m : Mask) (l : List Nat) (i : Nat)
    (h : ∀ x ∈ l, x < 256) :
    maskBufferGo m (maskBufferGo m l i) i = l := by
  induction l generalizing i with
  | nil => rfl
  | cons x xs ih =>
    simp only [maskBufferGo]
    rw [mask_byte_invol x (maskByteAt m i) (h x (by simp)),
        ih (i + 1) (fun z hz => h z (by simp [hz]))]

theorem maskBuffer_invol (l : List Nat) (m : Mask) (h : ∀ x ∈ l, x < 256) :
    maskBuffer (maskBuffer l m) m = l :=
  maskBufferGo_invol m l 0 h

/-! ### Key object and packet structure lemmas -/

theorem getAlgorithmLength_new (material : List Nat) :
    getAlgorithmLength (transportKeyNew material TRANSPORT_STRATEGY_K_DHAC_K64) =
      .ok { master := 32, signK := 48, ivLength := 16 } := by
  rfl

theorem masterKey_new (material : List Nat) (hm : 32 ≤ material.length) :
    masterKey (transportKeyNew material TRANSPORT_STRATEGY_K_DHAC_K64) false =
      .ok (material.take 32, transportKeyNew material TRANSPORT_STRATEGY_K_DHAC_K64) := by
  unfold masterKey
  rw [getAlgorithmLength_new]
  simp only [Bind.bind, Except.bind]
  rw [if_neg (by
    show ¬ ((32 : Int) > (transportKeyNew material TRANSPORT_STRATEGY_K_DHAC_K64).km.total)
    unfold transportKeyNew freshReader
    simp only
    omega)]
  simp only [Bool.false_eq_true, if_false]
  unfold readerSeek transportKeyNew freshReader
  simp

theorem signKey_new_short (material : List Nat) (hm : material.length < 80) :
    signKey (transportKeyNew material TRANSPORT_STRATEGY_K_DHAC_K64) =
      .error .cryptoKeyShort := by
  unfold signKey
  rw [getAlgorithmLength_new]
  simp only [Bind.bind, Except.bind]
  rw [if_pos (by
    show ((32 + 48 : Nat) : Int) > (transportKeyNew material TRANSPORT_STRATEGY_K_DHAC_K64).km.total
    unfold transportKeyNew freshReader
    simp only
    omega)]

theorem signKey_new_ok (material : List Nat) (hm : 80 ≤ material.length) :
    signKey (transportKeyNew material TRANSPORT_STRATEGY_K_DHAC_K64) =
      .ok ((material.drop 32).take 48) := by
  unfold signKey
  rw [getAlgorithmLength_new]
  simp only [Bind.bind, Except.bind]
  rw [if_neg (by
    show ¬ (((32 + 48 : Nat) : Int) > (transportKeyNew material TRANSPORT_STRATEGY_K_DHAC_K64).km.total)
    unfold transportKeyNew freshReader
    simp only
    omega)]
  unfold readerSeek transportKeyNew freshReader
  simp

theorem createPacket_structure (P : Platform) (C : Crypto) (payload material : List Nat)
    (mask : Mask) (hm : 32 ≤ material.length) :
    createPacket P C payload (transportKeyNew material TRANSPORT_STRATEGY_K_DHAC_K64) mask =
      .ok (PACKET_MAGIC_BUFFER ++
        (serializeVal P (.buf (C.encrypt (material.take 32) (C.randomBytes 16) payload)) ++
          (serializeVal P (.buf (signPayload C payload
            ((signKey (transportKeyNew material TRANSPORT_STRATEGY_K_DHAC_K64)).toOption))) ++
            serializeVal P (.buf (maskBuffer (C.randomBytes 16) mask))))) := by
  unfold createPacket
  rw [show generateRandomIV C (transportKeyNew material TRANSPORT_STRATEGY_K_DHAC_K64) =
      .ok (C.randomBytes 16) from rfl]
  simp only [Bind.bind, Except.bind]
  rw [show kStrategy (transportKeyNew material TRANSPORT_STRATEGY_K_DHAC_K64) =
      .ok TRANSPORT_STRATEGY_K_DHAC_K64 from rfl]
  simp only [if_pos]
  rw [masterKey_new material hm]

theorem take_magic (x : List Nat) :
    (PACKET_MAGIC_BUFFER ++ x).take PACKET_MAGIC_BUFFER.length = PACKET_MAGIC_BUFFER :=
  List.take_left PACKET_MAGIC_BUFFER x

theorem isSecurePacket_of_magic (x : List Nat) :
    isSecurePacket (PACKET_MAGIC_BUFFER ++ x) = true := by
  unfold isSecurePacket
  rw [take_magic]
  exact timingSafeEqual_refl PACKET_MAGIC_BUFFER

theorem unwrapPacket_parse (P : Platform) (C : Crypto) (a s i material : List Nat)
    (mask : Mask)
    (ha : 0 < a.length) (ha2 : a.length < 2147483648)
    (hs : 0 < s.length) (hs2 : s.length < 2147483648)
    (hi : 0 < i.length) (hi2 : i.length < 2147483648)
    (hm : 32 ≤ material.length) :
    unwrapPacket P C
      (PACKET_MAGIC_BUFFER ++
        (serializeVal P (.buf a) ++ (serializeVal P (.buf s) ++ serializeVal P (.buf i))))
      (transportKeyNew material TRANSPORT_STRATEGY_K_DHAC_K64) mask =
      (if timingSafeEqual
            (signPayload C (C.decrypt (material.take 32) (maskBuffer i mask) a)
              ((signKey (transportKeyNew material TRANSPORT_STRATEGY_K_DHAC_K64)).toOption))
            s = false
       then .error .invalidSignature
       else
         Except.bind
           (deserialize P (freshReader (C.decrypt (material.take 32) (maskBuffer i mask) a)))
           (fun r => unwrapDecode r.1)) := by
  unfold unwrapPacket
  simp only [isSecurePacket_of_magic, Bool.true_eq_false, if_false, List.drop_left,
    show kStrategy (transportKeyNew material TRANSPORT_STRATEGY_K_DHAC_K64) =
      .ok TRANSPORT_STRATEGY_K_DHAC_K64 from rfl,
    Bind.bind, Except.bind, if_pos]
  have hX0 : (serializeVal P (.buf a) ++ (serializeVal P (.buf s) ++ serializeVal P (.buf i))).drop 0
      = serializeVal P (.buf a) ++ (serializeVal P (.buf s) ++ serializeVal P (.buf i)) :=
    List.drop_zero _
  have hd1 := des_buf P
    (serializeVal P (.buf a) ++ (serializeVal P (.buf s) ++ serializeVal P (.buf i)))
    0 ((serializeVal P (.buf a) ++ (serializeVal P (.buf s) ++ serializeVal P (.buf i))).length : Int)
    a (serializeVal P (.buf s) ++ serializeVal P (.buf i)) ha ha2 hX0
  have hd2pre := drop_shift
    (serializeVal P (.buf a) ++ (serializeVal P (.buf s) ++ serializeVal P (.buf i)))
    0 (serializeVal P (.buf a)) (serializeVal P (.buf s) ++ serializeVal P (.buf i)) hX0
  have hd2 := des_buf P
    (serializeVal P (.buf a) ++ (serializeVal P (.buf s) ++ serializeVal P (.buf i)))
    (0 + (serializeVal P (.buf a)).length)
    ((serializeVal P (.buf a) ++ (serializeVal P (.buf s) ++ serializeVal P (.buf i))).length : Int)
    s (serializeVal P (.buf i)) hs hs2 hd2pre
  have hd3pre := drop_shift
    (serializeVal P (.buf a) ++ (serializeVal P (.buf s) ++ serializeVal P (.buf i)))
    (0 + (serializeVal P (.buf a)).length) (serializeVal P (.buf s)) (serializeVal P (.buf i)) hd2pre
  have hd3 := des_buf P
    (serializeVal P (.buf a) ++ (serializeVal P (.buf s) ++ serializeVal P (.buf i)))
    (0 + (serializeVal P (.buf a)).length + (serializeVal P (.buf s)).length)
    ((serializeVal P (.buf a) ++ (serializeVal P (.buf s) ++ serializeVal P (.buf i))).length : Int)
    i [] hi hi2 (by rw [hd3pre, List.append_nil])
  rw [show freshReader (serializeVal P (.buf a) ++ (serializeVal P (.buf s) ++ serializeVal P (.buf i)))
      = ⟨some (serializeVal P (.buf a) ++ (serializeVal P (.buf s) ++ serializeVal P (.buf i))), 0,
          ((serializeVal P (.buf a) ++ (serializeVal P (.buf s) ++ serializeVal P (.buf i))).length : Int)⟩
      from rfl]
  rw [hd1]
  dsimp only
  rw [hd2]
  dsimp only
  rw [hd3]
  dsimp only
  rw [masterKey_new material hm]

/-! ### Claims -/

theorem masterKey_new_short (material : List Nat) (hm : material.length < 32) :
    masterKey (transportKeyNew material TRANSPORT_STRATEGY_K_DHAC_K64) false =
      .error .cryptoKeyShort := by
  unfold masterKey
  rw [getAlgorithmLength_new]
  simp only [Bind.bind, Except.bind]
  rw [if_pos (by
    show ((32 : Nat) : Int) > (transportKeyNew material TRANSPORT_STRATEGY_K_DHAC_K64).km.total
    unfold transportKeyNew freshReader
    simp only
    omega)]

/-- C5: for every `n ≤ 2^31 − 1`, `readIntVQL` over the bytes of
`writeInt32VQL(n)` yields `n` (consuming exactly the encoding), and the zero
encoding is exactly the single zero byte. -/
theorem C5_vql_round_trip (n : Nat) (h : n ≤ 2147483647) :
    readIntVQL (freshReader (writeInt32VQL (n : Int))) =
      .ok ((n : Int),
        { data := some (writeInt32VQL (n : Int)),
          cursor := (writeInt32VQL (n : Int)).length,
          total := ((writeInt32VQL (n : Int)).length : Int) }) ∧
    writeInt32VQL ((0 : Nat) : Int) = [0] := by
  constructor
  · have hd : (writeInt32VQL (n : Int)).drop 0 = writeInt32VQL (n : Int) ++ [] := by
      simp
    have := readIntVQL_at (writeInt32VQL (n : Int)) 0 ((writeInt32VQL (n : Int)).length : Int)
      n [] hd (by omega)
    simpa [freshReader] using this
  · rfl

/-- C5 witness: the round trip at `n = 300` (a two-byte encoding). -/
theorem C5_vql_round_trip_witness :
    (300 : Nat) ≤ 2147483647 ∧
    readIntVQL (freshReader (writeInt32VQL ((300 : Nat) : Int))) =
      .ok (((300 : Nat) : Int),
        { data := some (writeInt32VQL ((300 : Nat) : Int)),
          cursor := (writeInt32VQL ((300 : Nat) : Int)).length,
          total := ((writeInt32VQL ((300 : Nat) : Int)).length : Int) }) :=
  ⟨by norm_num, (C5_vql_round_trip 300 (by norm_num)).1⟩

/-- C7 counterexample: consume a one-byte reader with a no-length `read`
(which nulls the backing buffer), then read again — the failure is the
JavaScript `TypeError` from dereferencing the nulled buffer, not
`ERR_END_OF_STREAM` as the claim states. -/
theorem C7_counterexample :
    readBytes (freshReader [42]) none = .ok ([42], { data := none, cursor := 1, total := 1 }) ∧
    readBytes { data := none, cursor := 1, total := 1 } (some 1) = .error .typeError ∧
    JsErr.typeError ≠ JsErr.endOfStream := by
  refine ⟨by decide, by decide, by decide⟩

/-- C7 amended: a counted read of the next `N` available bytes returns
exactly those bytes and consumes them; a no-length read returns all remaining
bytes (nulling the buffer); a read from a counted-reads-exhausted source
fails with `ERR_END_OF_STREAM`; but a read after a no-length read (nulled
buffer) fails with a `TypeError` instead. -/
theorem C7_reader_contract (d : List Nat) (c : Nat) (t : Int) (x rest : List Nat)
    (hx : 0 < x.length) (h : d.drop c = x ++ rest) :
    readBytes ⟨some d, c, t⟩ (some (x.length : Int)) = .ok (x, ⟨some d, c + x.length, t⟩) ∧
    readBytes ⟨some d, c, t⟩ none = .ok (x ++ rest, ⟨none, d.length, t⟩) ∧
    (rest = [] → readBytes ⟨some d, c + x.length, t⟩ (some 1) = .error .endOfStream) ∧
    (∀ L : Int, readBytes ⟨none, c, t⟩ (some L) = .error .typeError) := by
  have hlen : (d.drop c).length = d.length - c := List.length_drop c d
  have hrem : d.length - c = x.length + rest.length := by
    rw [← hlen, h, List.length_append]
  refine ⟨readBytes_chunk d c t x rest h hx, ?_, ?_, fun L => rfl⟩
  · unfold readBytes
    simp only
    rw [if_neg (by omega : ¬ d.length - c < 1), h]
  · intro hrest
    unfold readBytes
    simp only
    rw [if_pos (by subst hrest; simp at hrem; omega : d.length - (c + x.length) < 1)]

/-- C7 amended witness: the reader contract over the bytes `[1, 2, 3]` with
the whole buffer as the counted chunk. -/
theorem C7_reader_contract_witness :
    ([1, 2, 3] : List Nat).drop 0 = [1, 2, 3] ++ [] ∧
    readBytes ⟨some [1, 2, 3], 0, 3⟩ (some (([1, 2, 3] : List Nat).length : Int)) =
      .ok ([1, 2, 3], ⟨some [1, 2, 3], 0 + ([1, 2, 3] : List Nat).length, 3⟩) ∧
    readBytes ⟨some [1, 2, 3], 0 + ([1, 2, 3] : List Nat).length, 3⟩ (some 1) =
      .error .endOfStream :=
  have h := C7_reader_contract [1, 2, 3] 0 3 [1, 2, 3] [] (by decide) (by decide)
  ⟨by decide, h.1, h.2.2.1 rfl⟩

/-- C3: evaluating the codec at the failing inputs of the round-trip claim —
the empty buffer serializes to `[0x06, 0x00]` and the empty string to
`[0x01, 0x00]`, and deserializing either fails with `ERR_END_OF_STREAM`
because the zero-length `read` takes the `length < 1` read-all path, which
first requires at least one remaining byte. -/
theorem C3_empty_roundtrip_fails :
    serializeVal idPlatform (.buf []) = [6, 0] ∧
    serializeVal idPlatform (.str "") = [1, 0] ∧
    deserialize idPlatform (freshReader (serializeVal idPlatform (.buf []))) =
      .error .endOfStream ∧
    deserialize idPlatform (freshReader (serializeVal idPlatform (.str ""))) =
      .error .endOfStream := by
  refine ⟨by decide, ?_, by decide, by decide⟩
  show 1 :: (writeInt32VQL ((idPlatform.enc "").length : Int) ++ idPlatform.enc "") = [1, 0]
  decide

/-- C6: on a freshly constructed key object, the cipher-key slice succeeds
with bytes `[0, 32)` whenever at least 32 bytes of material are present
(regardless of total length), and fails with `ERR_CRYPTO_KEY_SHORT` below 32
bytes; the signing-key slice fails with `ERR_CRYPTO_KEY_SHORT` whenever fewer
than 32+48 bytes are present. -/
theorem C6_key_slices (material : List Nat) :
    (32 ≤ material.length →
      masterKey (transportKeyNew material TRANSPORT_STRATEGY_K_DHAC_K64) false =
        .ok (material.take 32, transportKeyNew material TRANSPORT_STRATEGY_K_DHAC_K64)) ∧
    (material.length < 32 →
      masterKey (transportKeyNew material TRANSPORT_STRATEGY_K_DHAC_K64) false =
        .error .cryptoKeyShort) ∧
    (material.length < 80 →
      signKey (transportKeyNew material TRANSPORT_STRATEGY_K_DHAC_K64) =
        .error .cryptoKeyShort) :=
  ⟨fun hm => masterKey_new material hm, fun hm => masterKey_new_short material hm,
   fun hm => signKey_new_short material hm⟩

/-- C6 witness: a 40-byte blob yields the cipher key but not the signing key;
a 10-byte blob yields neither. -/
theorem C6_key_slices_witness :
    (32 ≤ (List.replicate 40 7 : List Nat).length ∧
      masterKey (transportKeyNew (List.replicate 40 7) TRANSPORT_STRATEGY_K_DHAC_K64) false =
        .ok ((List.replicate 40 7 : List Nat).take 32,
          transportKeyNew (List.replicate 40 7) TRANSPORT_STRATEGY_K_DHAC_K64) ∧
      signKey (transportKeyNew (List.replicate 40 7) TRANSPORT_STRATEGY_K_DHAC_K64) =
        .error .cryptoKeyShort) ∧
    masterKey (transportKeyNew (List.replicate 10 7) TRANSPORT_STRATEGY_K_DHAC_K64) false =
      .error .cryptoKeyShort :=
  ⟨⟨by decide, (C6_key_slices (List.replicate 40 7)).1 (by decide),
    (C6_key_slices (List.replicate 40 7)).2.2 (by decide)⟩,
   (C6_key_slices (List.replicate 10 7)).2.1 (by decide)⟩

theorem concatBuffers_single (chunk : List Nat) : concatBuffers [chunk] = chunk := by
  simp [concatBuffers]

/-- C9: a `Transporter` holds exactly one live payload variant at a time
(`TransportPayload` is a sum), and a raw `write` while a key/value list is
active discards the accumulated pairs: the state becomes a fresh raw
accumulator holding only the new chunk, and a subsequent `bytes()` serializes
only that chunk. -/
theorem C9_write_discards_pairs (P : Platform) (t : TState)
    (pairs : List (String × JSValue)) (chunk : List Nat)
    (hd : t.disposed = false) (hp : t.payload = .dict pairs) :
    transporterWrite t chunk = .ok { t with payload := .raw [chunk] } ∧
    (transporterWrite t chunk).bind (fun t2 => transporterBytes P t2) =
      .ok (serializeVal P (.buf chunk)) := by
  have hw : transporterWrite t chunk = .ok { t with payload := .raw [chunk] } := by
    unfold transporterWrite
    rw [hd]
    simp only [Bool.false_eq_true, if_false, hp]
  refine ⟨hw, ?_⟩
  rw [hw]
  show transporterBytes P { t with payload := .raw [chunk] } = _
  unfold transporterBytes
  rw [show ({ t with payload := .raw [chunk] } : TState).disposed = false from hd]
  simp only [Bool.false_eq_true, if_false]
  unfold transporterToBytes
  simp only [concatBuffers_single]

/-- C9 witness: appending two pairs then writing raw bytes leaves only the
raw chunk in the serialized output. -/
theorem C9_write_discards_pairs_witness :
    ({ payload := .dict [("a", .num 1), ("b", .null)], key := sampleKey,
       maskBytes := sampleMask, disposed := false } : TState).disposed = false ∧
    (transporterWrite
        { payload := .dict [("a", .num 1), ("b", .null)], key := sampleKey,
          maskBytes := sampleMask, disposed := false } [9, 8]).bind
      (fun t2 => transporterBytes idPlatform t2) =
      .ok (serializeVal idPlatform (.buf [9, 8])) :=
  ⟨rfl,
   (C9_write_discards_pairs idPlatform
     { payload := .dict [("a", .num 1), ("b", .null)], key := sampleKey,
       maskBytes := sampleMask, disposed := false }
     [("a", .num 1), ("b", .null)] [9, 8] rfl rfl).2⟩


theorem disposedKeyOf_disposed (k : KState) : (disposedKeyOf k).disposed = true := by
  unfold disposedKeyOf transporterDispose transporterNew transportKeyDispose
  simp only [Bool.false_eq_true, if_false]
  by_cases hk : k.disposed
  · simp [hk]
  · simp [hk]

/-- C10 counterexample: with the key disposed through the transporter, an
`unwrapPacket` call on bytes that do not carry the packet magic fails with
the magic-mismatch error, not the resource-disposed error the claim requires
of every `unwrapPacket` call using the key. -/
theorem C10_counterexample :
    unwrapPacket idPlatform cIdentity [9, 9, 9] (disposedKeyOf sampleKey) sampleMask =
      .error .magicMismatch ∧
    JsErr.magicMismatch ≠ JsErr.resourceDisposed := by
  refine ⟨by decide, by decide⟩

/-- C10 amended: disposing a `Transporter` disposes the caller-supplied key
object it holds, so every subsequent key operation (`strategy`, `master`,
`signK`, `generateRandomIV`) fails with the resource-disposed error, as does
every `createPacket` call using it; an `unwrapPacket` call using it fails
with the resource-disposed error provided the input bears the packet magic
(inputs without the magic fail with the magic-mismatch error first, as they
would with a live key). -/
theorem C10_dispose_cascades (P : Platform) (C : Crypto) (k : KState)
    (p q : List Nat) (m : Mask) (hq : isSecurePacket q = true) :
    kStrategy (disposedKeyOf k) = .error .resourceDisposed ∧
    masterKey (disposedKeyOf k) false = .error .resourceDisposed ∧
    signKey (disposedKeyOf k) = .error .resourceDisposed ∧
    generateRandomIV C (disposedKeyOf k) = .error .resourceDisposed ∧
    createPacket P C p (disposedKeyOf k) m = .error .resourceDisposed ∧
    unwrapPacket P C q (disposedKeyOf k) m = .error .resourceDisposed := by
  have hdisp := disposedKeyOf_disposed k
  have halg : getAlgorithmLength (disposedKeyOf k) = .error .resourceDisposed := by
    unfold getAlgorithmLength
    rw [hdisp]
    simp
  have hstrat : kStrategy (disposedKeyOf k) = .error .resourceDisposed := by
    unfold kStrategy
    rw [hdisp]
    simp
  have hmaster : masterKey (disposedKeyOf k) false = .error .resourceDisposed := by
    unfold masterKey
    rw [halg]
    rfl
  have hsign : signKey (disposedKeyOf k) = .error .resourceDisposed := by
    unfold signKey
    rw [halg]
    rfl
  have hiv : generateRandomIV C (disposedKeyOf k) = .error .resourceDisposed := by
    unfold generateRandomIV
    rw [halg]
    rfl
  refine ⟨hstrat, hmaster, hsign, hiv, ?_, ?_⟩
  · unfold createPacket
    rw [hiv]
    rfl
  · unfold unwrapPacket
    simp only [hq, Bool.true_eq_false, if_false, hstrat, Bind.bind, Except.bind]

/-- C10 amended witness: the cascade at the sample key, with the bare magic
constant as the magic-bearing input. -/
theorem C10_dispose_cascades_witness :
    isSecurePacket PACKET_MAGIC_BUFFER = true ∧
    createPacket idPlatform cIdentity [1] (disposedKeyOf sampleKey) sampleMask =
      .error .resourceDisposed ∧
    unwrapPacket idPlatform cIdentity PACKET_MAGIC_BUFFER (disposedKeyOf sampleKey) sampleMask =
      .error .resourceDisposed :=
  have h := C10_dispose_cascades idPlatform cIdentity sampleKey [1] PACKET_MAGIC_BUFFER
    sampleMask (by decide)
  ⟨by decide, h.2.2.2.2.1, h.2.2.2.2.2⟩

/-- C2 counterexample: the first TLV of a concrete sealed packet begins with
tag byte 6, not the 0x05 the claim assigns to `Buffer`; in the source enum
tag 5 is `MarshallObject` and `Buffer` is 6. -/
theorem C2_counterexample :
    (createPacket idPlatform cIdentity [1] sampleKey sampleMask).map
      (fun l => l.get? 20) = .ok (some 6) ∧
    SerializableDataType.Buffer = 6 ∧
    SerializableDataType.MarshallObject = 5 ∧
    (6 : Nat) ≠ 5 := by
  refine ⟨by decide, rfl, rfl, by decide⟩

/-- C2 amended: every packet produced by `createPacket` is the 20-byte magic
followed by exactly three Buffer-tagged TLV fields (cipherText, signature,
maskedIV, in that order), each the tag byte 0x06 followed by the VQL-encoded
length and the raw bytes; the codec's tag byte values are Null=0, String=1,
UnsignedInt=2, Object=3, Array=4, MarshallObject=5, Buffer=6. -/
theorem C2_packet_layout (P : Platform) (C : Crypto) (payload material : List Nat)
    (mask : Mask) (hm : 32 ≤ material.length) :
    createPacket P C payload (transportKeyNew material TRANSPORT_STRATEGY_K_DHAC_K64) mask =
      .ok (PACKET_MAGIC_BUFFER ++
        ((SerializableDataType.Buffer ::
            (writeInt32VQL ((C.encrypt (material.take 32) (C.randomBytes 16) payload).length : Int) ++
              C.encrypt (material.take 32) (C.randomBytes 16) payload)) ++
          ((SerializableDataType.Buffer ::
              (writeInt32VQL ((signPayload C payload
                  ((signKey (transportKeyNew material TRANSPORT_STRATEGY_K_DHAC_K64)).toOption)).length : Int) ++
                signPayload C payload
                  ((signKey (transportKeyNew material TRANSPORT_STRATEGY_K_DHAC_K64)).toOption))) ++
            (SerializableDataType.Buffer ::
              (writeInt32VQL ((maskBuffer (C.randomBytes 16) mask).length : Int) ++
                maskBuffer (C.randomBytes 16) mask))))) ∧
    SerializableDataType.Null = 0 ∧ SerializableDataType.String = 1 ∧
    SerializableDataType.Uint = 2 ∧ SerializableDataType.Object = 3 ∧
    SerializableDataType.Array = 4 ∧ SerializableDataType.MarshallObject = 5 ∧
    SerializableDataType.Buffer = 6 := by
  refine ⟨?_, rfl, rfl, rfl, rfl, rfl, rfl, rfl⟩
  rw [createPacket_structure P C payload material mask hm]
  rfl

/-- C2 amended witness: the layout at a concrete payload and key. -/
theorem C2_packet_layout_witness :
    32 ≤ sampleKeyMaterial.length ∧
    createPacket idPlatform cIdentity [1]
        (transportKeyNew sampleKeyMaterial TRANSPORT_STRATEGY_K_DHAC_K64) sampleMask =
      .ok (PACKET_MAGIC_BUFFER ++
        ((SerializableDataType.Buffer ::
            (writeInt32VQL (((cIdentity.encrypt (sampleKeyMaterial.take 32)
                (cIdentity.randomBytes 16) [1])).length : Int) ++
              cIdentity.encrypt (sampleKeyMaterial.take 32) (cIdentity.randomBytes 16) [1])) ++
          ((SerializableDataType.Buffer ::
              (writeInt32VQL ((signPayload cIdentity [1]
                  ((signKey (transportKeyNew sampleKeyMaterial TRANSPORT_STRATEGY_K_DHAC_K64)).toOption)).length : Int) ++
                signPayload cIdentity [1]
                  ((signKey (transportKeyNew sampleKeyMaterial TRANSPORT_STRATEGY_K_DHAC_K64)).toOption))) ++
            (SerializableDataType.Buffer ::
              (writeInt32VQL ((maskBuffer (cIdentity.randomBytes 16) sampleMask).length : Int) ++
                maskBuffer (cIdentity.randomBytes 16) sampleMask))))) :=
  ⟨by decide,
   (C2_packet_layout idPlatform cIdentity [1] sampleKeyMaterial sampleMask (by decide)).1⟩

theorem except_bind_ok {e a b : Type} (x : a) (f : a → Except e b) :
    (Except.ok x).bind f = f x := rfl

theorem packet_roundtrip_eq (P : Platform) (C : Crypto) (p material : List Nat) (mask : Mask)
    (hm : 32 ≤ material.length)
    (hp : 0 < p.length) (hp2 : p.length < 2147483648)
    (hencl : ∀ k iv d, (C.encrypt k iv d).length = d.length)
    (hdec : ∀ k iv d, C.decrypt k iv (C.encrypt k iv d) = d)
    (hivlen : (C.randomBytes 16).length = 16)
    (hivb : ∀ x ∈ C.randomBytes 16, x < 256)
    (hs1 : 0 < (signPayload C p
      ((signKey (transportKeyNew material TRANSPORT_STRATEGY_K_DHAC_K64)).toOption)).length)
    (hs2 : (signPayload C p
      ((signKey (transportKeyNew material TRANSPORT_STRATEGY_K_DHAC_K64)).toOption)).length <
        2147483648) :
    (createPacket P C p (transportKeyNew material TRANSPORT_STRATEGY_K_DHAC_K64) mask).bind
      (fun pkt =>
        unwrapPacket P C pkt (transportKeyNew material TRANSPORT_STRATEGY_K_DHAC_K64) mask) =
      Except.bind (deserialize P (freshReader p)) (fun r => unwrapDecode r.1) := by
  rw [createPacket_structure P C p material mask hm, except_bind_ok]
  rw [unwrapPacket_parse P C
    (C.encrypt (material.take 32) (C.randomBytes 16) p)
    (signPayload C p ((signKey (transportKeyNew material TRANSPORT_STRATEGY_K_DHAC_K64)).toOption))
    (maskBuffer (C.randomBytes 16) mask) material mask
    (by rw [hencl]; exact hp) (by rw [hencl]; exact hp2)
    hs1 hs2
    (by rw [maskBuffer_length, hivlen]; norm_num)
    (by rw [maskBuffer_length, hivlen]; norm_num)
    hm]
  rw [maskBuffer_invol (C.randomBytes 16) mask hivb, hdec]
  simp only [timingSafeEqual_refl, Bool.true_eq_false, if_false]

/-- C1 counterexample: sealing the one-byte payload `[0x00]` and unwrapping
it with the same key and mask completes, but returns the codec decoding of
the byte (the tagged value `null`), not a value equal to the payload. -/
theorem C1_counterexample :
    (createPacket idPlatform cIdentity [0] sampleKey sampleMask).bind
      (fun pkt => unwrapPacket idPlatform cIdentity pkt sampleKey sampleMask) =
      .ok (.value .null) ∧
    UnwrapResult.value .null ≠ UnwrapResult.value (.buf [0]) := by
  refine ⟨by decide, by decide⟩

/-- C1 amended: for a lawful crypto provider, unwrapping a packet created
from payload `p` (nonempty) succeeds exactly when the codec decodes `p`, and
returns the decoded value post-processed by the key/value-list
reconstruction — not `p` itself; in particular, when `p` decodes to a
buffer value `b`, the unwrap returns `b`. -/
theorem C1_seal_unseal (P : Platform) (C : Crypto) (p material : List Nat) (mask : Mask)
    (hm : 32 ≤ material.length)
    (hp : 0 < p.length) (hp2 : p.length < 2147483648)
    (hencl : ∀ k iv d, (C.encrypt k iv d).length = d.length)
    (hdec : ∀ k iv d, C.decrypt k iv (C.encrypt k iv d) = d)
    (hivlen : (C.randomBytes 16).length = 16)
    (hivb : ∀ x ∈ C.randomBytes 16, x < 256)
    (hs1 : 0 < (signPayload C p
      ((signKey (transportKeyNew material TRANSPORT_STRATEGY_K_DHAC_K64)).toOption)).length)
    (hs2 : (signPayload C p
      ((signKey (transportKeyNew material TRANSPORT_STRATEGY_K_DHAC_K64)).toOption)).length <
        2147483648) :
    (createPacket P C p (transportKeyNew material TRANSPORT_STRATEGY_K_DHAC_K64) mask).bind
      (fun pkt =>
        unwrapPacket P C pkt (transportKeyNew material TRANSPORT_STRATEGY_K_DHAC_K64) mask) =
      Except.bind (deserialize P (freshReader p)) (fun r => unwrapDecode r.1) ∧
    (∀ (b : List Nat) (st : RState),
      deserialize P (freshReader p) = .ok (.buf b, st) →
      (createPacket P C p (transportKeyNew material TRANSPORT_STRATEGY_K_DHAC_K64) mask).bind
        (fun pkt =>
          unwrapPacket P C pkt (transportKeyNew material TRANSPORT_STRATEGY_K_DHAC_K64) mask) =
        .ok (.value (.buf b))) := by
  have heq := packet_roundtrip_eq P C p material mask hm hp hp2 hencl hdec hivlen hivb hs1 hs2
  refine ⟨heq, fun b st hdes => ?_⟩
  rw [heq, hdes, except_bind_ok]
  rfl

/-- C1 amended witness: the payload `[6, 1, 42]` (the codec serialization of
the one-byte buffer `[42]`) round-trips to the buffer `[42]` under the
transparent provider. -/
theorem C1_seal_unseal_witness :
    deserialize idPlatform (freshReader [6, 1, 42]) =
      .ok (.buf [42], { data := some [6, 1, 42], cursor := 3, total := 3 }) ∧
    (createPacket idPlatform cIdentity [6, 1, 42]
        (transportKeyNew sampleKeyMaterial TRANSPORT_STRATEGY_K_DHAC_K64) sampleMask).bind
      (fun pkt => unwrapPacket idPlatform cIdentity pkt
        (transportKeyNew sampleKeyMaterial TRANSPORT_STRATEGY_K_DHAC_K64) sampleMask) =
      .ok (.value (.buf [42])) :=
  ⟨by decide,
   (C1_seal_unseal idPlatform cIdentity [6, 1, 42] sampleKeyMaterial sampleMask
      (by decide) (by decide) (by decide)
      (fun _ _ _ => rfl) (fun _ _ _ => rfl) (by decide) (by decide)
      (by decide) (by decide)).2 [42]
    { data := some [6, 1, 42], cursor := 3, total := 3 } (by decide)⟩


/-- C8 counterexample: the decoded plaintext `[[]]` (a one-element array
whose element is the empty array) is not an array of two-element pairs, yet
`unwrapPacket` does not return it unchanged: the guard only inspects the
first element, so the value is dict-reconstructed into
`{ "undefined": undefined }`. -/
theorem C8_counterexample :
    deserialize idPlatform (freshReader [4, 1, 4, 0]) =
      .ok (.arr (.cons (.arr .nil) .nil), { data := some [4, 1, 4, 0], cursor := 4, total := 4 }) ∧
    pairsTwo (.cons (.arr .nil) .nil) = false ∧
    (createPacket idPlatform cIdentity [4, 1, 4, 0] sampleKey sampleMask).bind
      (fun pkt => unwrapPacket idPlatform cIdentity pkt sampleKey sampleMask) =
      .ok (.obj [("undefined", none)]) ∧
    UnwrapResult.obj [("undefined", none)] ≠
      UnwrapResult.value (.arr (.cons (.arr .nil) .nil)) := by
  refine ⟨by decide, by decide, by decide, by decide⟩

/-- C8 amended: after successful verification the unwrap result is
`unwrapDecode` of the decoded plaintext; when the decoded plaintext is an
array of two-element pairs this is the key→value object built from the pairs
in order (`packDict`), and every decoded value that fails the code's guard
(a non-array, or a nonempty array whose first element is not an array) is
returned unchanged — but the guard checks only the first element, so other
malformed arrays are also dict-reconstructed. -/
theorem C8_dict_reconstruction (P : Platform) (C : Crypto) (p material : List Nat)
    (mask : Mask) (raw : JSValue) (st : RState)
    (hm : 32 ≤ material.length)
    (hp : 0 < p.length) (hp2 : p.length < 2147483648)
    (hencl : ∀ k iv d, (C.encrypt k iv d).length = d.length)
    (hdec : ∀ k iv d, C.decrypt k iv (C.encrypt k iv d) = d)
    (hivlen : (C.randomBytes 16).length = 16)
    (hivb : ∀ x ∈ C.randomBytes 16, x < 256)
    (hs1 : 0 < (signPayload C p
      ((signKey (transportKeyNew material TRANSPORT_STRATEGY_K_DHAC_K64)).toOption)).length)
    (hs2 : (signPayload C p
      ((signKey (transportKeyNew material TRANSPORT_STRATEGY_K_DHAC_K64)).toOption)).length <
        2147483648)
    (hdes : deserialize P (freshReader p) = .ok (raw, st)) :
    (createPacket P C p (transportKeyNew material TRANSPORT_STRATEGY_K_DHAC_K64) mask).bind
      (fun pkt =>
        unwrapPacket P C pkt (transportKeyNew material TRANSPORT_STRATEGY_K_DHAC_K64) mask) =
      unwrapDecode raw ∧
    (∀ pairs, raw = .arr pairs → pairsTwo pairs = true →
      unwrapDecode raw = Except.bind (packDict pairs []) (fun o => .ok (.obj o))) ∧
    (dictGuard raw = false → unwrapDecode raw = .ok (.value raw)) := by
  have heq := packet_roundtrip_eq P C p material mask hm hp hp2 hencl hdec hivlen hivb hs1 hs2
  refine ⟨?_, ?_, ?_⟩
  · rw [heq, hdes, except_bind_ok]
  · rintro pairs rfl hpairs
    have hguard : dictGuard (.arr pairs) = true := by
      cases pairs with
      | nil => rfl
      | cons hd tl =>
        cases hd with
        | arr xs => rfl
        | null => exact absurd hpairs (by simp [pairsTwo])
        | str s => exact absurd hpairs (by simp [pairsTwo])
        | buf b => exact absurd hpairs (by simp [pairsTwo])
        | num n => exact absurd hpairs (by simp [pairsTwo])
    unfold unwrapDecode
    rw [hguard]
    simp only [if_pos]
    cases pairs with
    | nil => rfl
    | cons hd tl => rfl
  · intro hguard
    unfold unwrapDecode
    rw [hguard]
    simp

/-- C8 amended witness: the serialized pair list `[[1, 2]]` unwraps to the
object mapping key `"1"` to `2`. -/
theorem C8_dict_reconstruction_witness :
    pairsTwo (.cons (.arr (.cons (.num 1) (.cons (.num 2) .nil))) .nil) = true ∧
    (createPacket idPlatform cIdentity [4, 1, 4, 2, 2, 1, 2, 2]
        (transportKeyNew sampleKeyMaterial TRANSPORT_STRATEGY_K_DHAC_K64) sampleMask).bind
      (fun pkt => unwrapPacket idPlatform cIdentity pkt
        (transportKeyNew sampleKeyMaterial TRANSPORT_STRATEGY_K_DHAC_K64) sampleMask) =
      unwrapDecode (.arr (.cons (.arr (.cons (.num 1) (.cons (.num 2) .nil))) .nil)) ∧
    unwrapDecode (.arr (.cons (.arr (.cons (.num 1) (.cons (.num 2) .nil))) .nil)) =
      .ok (.obj [("1", some (.num 2))]) :=
  ⟨by decide,
   (C8_dict_reconstruction idPlatform cIdentity [4, 1, 4, 2, 2, 1, 2, 2] sampleKeyMaterial
      sampleMask (.arr (.cons (.arr (.cons (.num 1) (.cons (.num 2) .nil))) .nil))
      { data := some [4, 1, 4, 2, 2, 1, 2, 2], cursor := 8, total := 8 }
      (by decide) (by decide) (by decide)
      (fun _ _ _ => rfl) (fun _ _ _ => rfl) (by decide) (by decide)
      (by decide) (by decide) (by decide)).1,
   by decide⟩



theorem flipBit_length (l : List Nat) (i b : Nat) :
    (flipBit l i b).length = l.length := by
  unfold flipBit
  exact List.length_set l i _

theorem flipBit_append_right (A B : List Nat) (j b : Nat) (hj : j < B.length) :
    flipBit (A ++ B) (A.length + j) b = A ++ flipBit B j b := by
  unfold flipBit
  rw [List.getElem?_append_right (by omega : A.length ≤ A.length + j)]
  rw [List.set_append_right _ _ (by omega : A.length ≤ A.length + j)]
  have hidx : A.length + j - A.length = j := by omega
  rw [hidx]

theorem flipBit_append_left (B C : List Nat) (j b : Nat) (hj : j < B.length) :
    flipBit (B ++ C) j b = flipBit B j b ++ C := by
  unfold flipBit
  rw [List.getElem?_append_left hj, List.set_append_left _ _ hj]

theorem flipBit_ne (l : List Nat) (j b : Nat) (hj : j < l.length) :
    flipBit l j b ≠ l := by
  intro h
  have hget := congrArg (fun x => x[j]?) h
  unfold flipBit at hget
  simp only at hget
  rw [List.getElem?_set_self hj] at hget
  rw [List.getElem?_eq_getElem hj] at hget
  simp only [Option.getD_some, Option.some.injEq] at hget
  have hpow : (0 : Nat) < 1 <<< b := by
    rw [Nat.shiftLeft_eq]
    positivity
  have hc := congrArg (fun z => l[j] ^^^ z) hget
  simp only at hc
  rw [← Nat.xor_assoc, Nat.xor_self, Nat.zero_xor] at hc
  omega

theorem flip_in_first_field (P : Platform) (e s i : List Nat) (j b : Nat)
    (hj : j < e.length) :
    flipBit
      (PACKET_MAGIC_BUFFER ++
        (serializeVal P (.buf e) ++ (serializeVal P (.buf s) ++ serializeVal P (.buf i))))
      (21 + (writeInt32VQL (e.length : Int)).length + j) b =
      PACKET_MAGIC_BUFFER ++
        (serializeVal P (.buf (flipBit e j b)) ++
          (serializeVal P (.buf s) ++ serializeVal P (.buf i))) := by
  have hassoc :
      PACKET_MAGIC_BUFFER ++
        (serializeVal P (.buf e) ++ (serializeVal P (.buf s) ++ serializeVal P (.buf i))) =
      (PACKET_MAGIC_BUFFER ++ (6 :: writeInt32VQL (e.length : Int))) ++
        (e ++ (serializeVal P (.buf s) ++ serializeVal P (.buf i))) := by
    simp [serializeVal_buf, List.append_assoc]
  have hAlen : (PACKET_MAGIC_BUFFER ++ (6 :: writeInt32VQL (e.length : Int))).length =
      21 + (writeInt32VQL (e.length : Int)).length := by
    simp [PACKET_MAGIC_BUFFER]
    omega
  have hidx : 21 + (writeInt32VQL (e.length : Int)).length + j =
      (PACKET_MAGIC_BUFFER ++ (6 :: writeInt32VQL (e.length : Int))).length + j := by
    omega
  rw [hassoc, hidx]
  rw [flipBit_append_right _ _ j b (by simp; omega)]
  rw [flipBit_append_left _ _ j b hj]
  have hlen2 : (flipBit e j b).length = e.length := flipBit_length e j b
  simp [serializeVal_buf, List.append_assoc, hlen2]

theorem flip_in_second_field (P : Platform) (e s i : List Nat) (j b : Nat)
    (hj : j < s.length) :
    flipBit
      (PACKET_MAGIC_BUFFER ++
        (serializeVal P (.buf e) ++ (serializeVal P (.buf s) ++ serializeVal P (.buf i))))
      (21 + (writeInt32VQL (e.length : Int)).length + e.length + 1 +
        (writeInt32VQL (s.length : Int)).length + j) b =
      PACKET_MAGIC_BUFFER ++
        (serializeVal P (.buf e) ++
          (serializeVal P (.buf (flipBit s j b)) ++ serializeVal P (.buf i))) := by
  have hassoc :
      PACKET_MAGIC_BUFFER ++
        (serializeVal P (.buf e) ++ (serializeVal P (.buf s) ++ serializeVal P (.buf i))) =
      (PACKET_MAGIC_BUFFER ++
          (serializeVal P (.buf e) ++ (6 :: writeInt32VQL (s.length : Int)))) ++
        (s ++ serializeVal P (.buf i)) := by
    simp [serializeVal_buf, List.append_assoc]
  have hAlen : (PACKET_MAGIC_BUFFER ++
      (serializeVal P (.buf e) ++ (6 :: writeInt32VQL (s.length : Int)))).length =
      21 + (writeInt32VQL (e.length : Int)).length + e.length + 1 +
        (writeInt32VQL (s.length : Int)).length := by
    simp [PACKET_MAGIC_BUFFER, serializeVal_buf]
    omega
  have hidx : 21 + (writeInt32VQL (e.length : Int)).length + e.length + 1 +
      (writeInt32VQL (s.length : Int)).length + j =
      (PACKET_MAGIC_BUFFER ++
        (serializeVal P (.buf e) ++ (6 :: writeInt32VQL (s.length : Int)))).length + j := by
    omega
  rw [hassoc, hidx]
  rw [flipBit_append_right _ _ j b (by simp; omega)]
  rw [flipBit_append_left _ _ j b hj]
  have hlen2 : (flipBit s j b).length = s.length := flipBit_length s j b
  simp [serializeVal_buf, List.append_assoc, hlen2]

/-- C4 counterexample: flipping the lowest bit of byte 20 of a sealed packet
(the tag byte of the cipher-text TLV field, turning tag 6 into 7) makes
`unwrapPacket` fail with `ERR_INVALID_TYPE`, not with the integrity error
`ERR_INVALID_SIGNATURE` the claim requires of every single-bit flip inside
that TLV field. -/
theorem C4_counterexample :
    (createPacket idPlatform cIdentity [1] sampleKey sampleMask).bind
      (fun pkt => unwrapPacket idPlatform cIdentity (flipBit pkt 20 0) sampleKey sampleMask) =
      .error .invalidType ∧
    JsErr.invalidType ≠ JsErr.invalidSignature := by
  refine ⟨by decide, by decide⟩

/-- C4 amended: flipping any single bit of the raw cipher-text bytes or the
raw signature bytes of a sealed packet (the value bytes of those TLV fields,
after the tag and length prefix) makes `unwrapPacket` with the same key and
mask fail with `ERR_INVALID_SIGNATURE` — so altered plaintext is never
returned — provided decryption is injective and no altered plaintext
collides with the original plaintext under the signing function. The
original claim also covered the tag and length bytes of those fields, which
is false (the counterexample flips the tag byte and gets
`ERR_INVALID_TYPE`); no uniform error is asserted for such header flips. -/
theorem C4_bit_flip_rejected (P : Platform) (C : Crypto) (p material : List Nat)
    (mask : Mask) (pkt : List Nat)
    (hm : 32 ≤ material.length)
    (hp : 0 < p.length) (hp2 : p.length < 2147483648)
    (hencl : ∀ k iv d, (C.encrypt k iv d).length = d.length)
    (hdec : ∀ k iv d, C.decrypt k iv (C.encrypt k iv d) = d)
    (hdecinj : ∀ iv x y, C.decrypt (material.take 32) iv x =
      C.decrypt (material.take 32) iv y → x = y)
    (hsiginj : ∀ x, x ≠ p →
      signPayload C x ((signKey (transportKeyNew material TRANSPORT_STRATEGY_K_DHAC_K64)).toOption) ≠
      signPayload C p ((signKey (transportKeyNew material TRANSPORT_STRATEGY_K_DHAC_K64)).toOption))
    (hivlen : (C.randomBytes 16).length = 16)
    (hivb : ∀ x ∈ C.randomBytes 16, x < 256)
    (hs1 : 0 < (signPayload C p
      ((signKey (transportKeyNew material TRANSPORT_STRATEGY_K_DHAC_K64)).toOption)).length)
    (hs2 : (signPayload C p
      ((signKey (transportKeyNew material TRANSPORT_STRATEGY_K_DHAC_K64)).toOption)).length <
        2147483648)
    (hpkt : createPacket P C p (transportKeyNew material TRANSPORT_STRATEGY_K_DHAC_K64) mask =
      .ok pkt)
    (j b : Nat) (hb : b < 8) :
    (j < (C.encrypt (material.take 32) (C.randomBytes 16) p).length →
      unwrapPacket P C
        (flipBit pkt
          (21 + (writeInt32VQL
            ((C.encrypt (material.take 32) (C.randomBytes 16) p).length : Int)).length + j) b)
        (transportKeyNew material TRANSPORT_STRATEGY_K_DHAC_K64) mask =
        .error .invalidSignature) ∧
    (j < (signPayload C p
        ((signKey (transportKeyNew material TRANSPORT_STRATEGY_K_DHAC_K64)).toOption)).length →
      unwrapPacket P C
        (flipBit pkt
          (21 + (writeInt32VQL
            ((C.encrypt (material.take 32) (C.randomBytes 16) p).length : Int)).length +
            (C.encrypt (material.take 32) (C.randomBytes 16) p).length + 1 +
            (writeInt32VQL ((signPayload C p
              ((signKey (transportKeyNew material TRANSPORT_STRATEGY_K_DHAC_K64)).toOption)).length : Int)).length + j) b)
        (transportKeyNew material TRANSPORT_STRATEGY_K_DHAC_K64) mask =
        .error .invalidSignature) := by
  rw [createPacket_structure P C p material mask hm] at hpkt
  have hpkt2 := (Except.ok.inj hpkt).symm
  subst hpkt2
  have henclen : (C.encrypt (material.take 32) (C.randomBytes 16) p).length = p.length :=
    hencl _ _ _
  constructor
  · intro hj
    rw [flip_in_first_field P _ _ _ j b hj]
    rw [unwrapPacket_parse P C _ _ _ material mask
      (by rw [flipBit_length]; omega) (by rw [flipBit_length]; omega)
      hs1 hs2
      (by rw [maskBuffer_length, hivlen]; norm_num)
      (by rw [maskBuffer_length, hivlen]; norm_num)
      hm]
    rw [maskBuffer_invol (C.randomBytes 16) mask hivb]
    have hne : flipBit (C.encrypt (material.take 32) (C.randomBytes 16) p) j b ≠
        C.encrypt (material.take 32) (C.randomBytes 16) p := flipBit_ne _ j b hj
    have hdecne : C.decrypt (material.take 32) (C.randomBytes 16)
        (flipBit (C.encrypt (material.take 32) (C.randomBytes 16) p) j b) ≠ p := by
      intro hcontra
      apply hne
      apply hdecinj (C.randomBytes 16)
      rw [hcontra, hdec]
    have hsigne := hsiginj _ hdecne
    have htse := timingSafeEqual_ne _ _ (by
      intro hcontra
      exact hsigne hcontra)
    rw [htse]
    simp
  · intro hj
    rw [flip_in_second_field P _ _ _ j b hj]
    rw [unwrapPacket_parse P C _ _ _ material mask
      (by omega) (by omega)
      (by rw [flipBit_length]; omega) (by rw [flipBit_length]; omega)
      (by rw [maskBuffer_length, hivlen]; norm_num)
      (by rw [maskBuffer_length, hivlen]; norm_num)
      hm]
    rw [maskBuffer_invol (C.randomBytes 16) mask hivb, hdec]
    have hne : flipBit (signPayload C p
        ((signKey (transportKeyNew material TRANSPORT_STRATEGY_K_DHAC_K64)).toOption)) j b ≠
        signPayload C p
          ((signKey (transportKeyNew material TRANSPORT_STRATEGY_K_DHAC_K64)).toOption) :=
      flipBit_ne _ j b hj
    have htse := timingSafeEqual_ne
      (signPayload C p ((signKey (transportKeyNew material TRANSPORT_STRATEGY_K_DHAC_K64)).toOption))
      (flipBit (signPayload C p
        ((signKey (transportKeyNew material TRANSPORT_STRATEGY_K_DHAC_K64)).toOption)) j b)
      (fun hcontra => hne hcontra.symm)
    rw [htse]
    simp

/-- C4 amended witness: flipping bit 0 of the single cipher-text byte of a
concrete sealed packet (index 22) is rejected with `ERR_INVALID_SIGNATURE`,
and likewise for bit 0 of the first signature byte. -/
theorem C4_bit_flip_rejected_witness :
    (0 : Nat) < (cIdentity.encrypt (sampleKeyMaterial.take 32) (cIdentity.randomBytes 16) [1]).length ∧
    unwrapPacket idPlatform cIdentity
      (flipBit
        ([0, 84, 78, 69, 84, 76, 73, 66, 83, 69, 67, 85, 82, 69, 80, 65, 67, 75, 69, 84,
          6, 1, 1, 6, 2, 0, 1, 6, 16, 191, 191, 191, 191, 191, 191, 191, 191, 191, 191,
          191, 191, 191, 191, 191, 191] : List Nat)
        (21 + (writeInt32VQL
          ((cIdentity.encrypt (sampleKeyMaterial.take 32) (cIdentity.randomBytes 16) [1]).length : Int)).length + 0) 0)
      (transportKeyNew sampleKeyMaterial TRANSPORT_STRATEGY_K_DHAC_K64) sampleMask =
      .error .invalidSignature ∧
    unwrapPacket idPlatform cIdentity
      (flipBit
        ([0, 84, 78, 69, 84, 76, 73, 66, 83, 69, 67, 85, 82, 69, 80, 65, 67, 75, 69, 84,
          6, 1, 1, 6, 2, 0, 1, 6, 16, 191, 191, 191, 191, 191, 191, 191, 191, 191, 191,
          191, 191, 191, 191, 191, 191] : List Nat)
        (21 + (writeInt32VQL
          ((cIdentity.encrypt (sampleKeyMaterial.take 32) (cIdentity.randomBytes 16) [1]).length : Int)).length +
          (cIdentity.encrypt (sampleKeyMaterial.take 32) (cIdentity.randomBytes 16) [1]).length + 1 +
          (writeInt32VQL ((signPayload cIdentity [1]
            ((signKey (transportKeyNew sampleKeyMaterial TRANSPORT_STRATEGY_K_DHAC_K64)).toOption)).length : Int)).length + 0) 0)
      (transportKeyNew sampleKeyMaterial TRANSPORT_STRATEGY_K_DHAC_K64) sampleMask =
      .error .invalidSignature :=
  have hmain := C4_bit_flip_rejected idPlatform cIdentity [1] sampleKeyMaterial sampleMask
    ([0, 84, 78, 69, 84, 76, 73, 66, 83, 69, 67, 85, 82, 69, 80, 65, 67, 75, 69, 84,
      6, 1, 1, 6, 2, 0, 1, 6, 16, 191, 191, 191, 191, 191, 191, 191, 191, 191, 191,
      191, 191, 191, 191, 191, 191] : List Nat)
    (by decide) (by decide) (by decide)
    (fun _ _ _ => rfl) (fun _ _ _ => rfl)
    (fun _ x y h => h)
    (fun x hne hc => hne (by
      have hxy : (0 : Nat) :: x = 0 :: [1] := hc
      injection hxy))
    (by decide) (by decide) (by decide) (by decide)
    (by decide) 0 0 (by decide)
  ⟨by decide, hmain.1 (by decide), hmain.2 (by decide)⟩
